import Mathlib

/-!
# Verification of the MRP aggregation engine (`modules/mrp/service.py`)

A shallow embedding of the MRP computation of the `vent-mrp-mvp` repository:
the data model (`WorkOrder`, `WorkOrderLine`, `Product`, `BOMItem`,
`RectangularDuctSpec`, `Settings`), the validation logic of
`modules/products/schemas.py`, and `MRPService.compute_work_order`.

Real-valued arithmetic (Python floats) is modelled exactly over `ℚ`;
fallible code is modelled with `Except`.  The wall clock is an explicit
`String` parameter (`now`), threaded only into `header.generated_at`.
-/

namespace MRP

/-- `core/settings.py` `Settings`: the two engine knobs. -/
structure Settings where
  steel_density_kg_m3 : ℚ
  waste_factor : ℚ
  deriving Repr, DecidableEq

/-- `core/errors.py` `AppException`: the engine raises
`ValidationAppException(message)`, which carries `message`, HTTP status
422 and `code = "validation_error"`. -/
structure AppError where
  message : String
  status_code : Nat
  code : String
  deriving Repr, DecidableEq

/-- `ValidationAppException(message)`. -/
def validationAppException (message : String) : AppError :=
  { message := message, status_code := 422, code := "validation_error" }

/-- `service.py:30`: raised when no line and no usable legacy fallback. -/
def noLinesError : AppError := validationAppException "İş emri satırı bulunamadı"

/-- `service.py:51`: raised on an unsupported product type. -/
def unsupportedTypeError : AppError :=
  validationAppException "Ürün tipi için hesaplama tanımlı değil"

/-- `service.py:55`: raised when `RectangularDuctSpec(**attributes)` fails. -/
def invalidGeometryError : AppError := validationAppException "Ürün ölçüleri geçersiz"

/-- A product's attribute record, the input of
`RectangularDuctSpec(**product.attributes)` (`modules/products/schemas.py`).
The four dimensions and the insulation flag are modelled as present and
well-typed; `insulation_thickness_mm` is optional as in the schema. -/
structure DuctAttrs where
  width_mm : ℚ
  height_mm : ℚ
  length_mm : ℚ
  thickness_mm : ℚ
  insulation_enabled : Bool
  insulation_thickness_mm : Option ℚ
  deriving Repr, DecidableEq

/-- A validated `RectangularDuctSpec` (`modules/products/schemas.py:8-26`). -/
structure RectangularDuctSpec where
  width_mm : ℚ
  height_mm : ℚ
  length_mm : ℚ
  thickness_mm : ℚ
  insulation_enabled : Bool
  insulation_thickness_mm : Option ℚ
  deriving Repr, DecidableEq

/-- The pydantic validation of `RectangularDuctSpec`: each dimension has
`gt=0`, `check_thickness` additionally requires `thickness_mm ≤ 20`, and
`validate_insulation_thickness` requires a positive
`insulation_thickness_mm` whenever `insulation_enabled`.  `none` on
failure models the raised `ValidationError`. -/
def parseDuctSpec (a : DuctAttrs) : Option RectangularDuctSpec :=
  if 0 < a.width_mm ∧ 0 < a.height_mm ∧ 0 < a.length_mm ∧
      (0 < a.thickness_mm ∧ a.thickness_mm ≤ 20) ∧
      (a.insulation_enabled = true → 0 < a.insulation_thickness_mm.getD 0) then
    some ⟨a.width_mm, a.height_mm, a.length_mm, a.thickness_mm,
      a.insulation_enabled, a.insulation_thickness_mm⟩
  else
    none

/-- `modules/products/models.py` `BOMItem` (the fields the engine reads). -/
structure BOMItem where
  name : String
  unit : Option String
  quantity_per_unit : ℚ
  cost_per_unit : Option ℚ
  deriving Repr, DecidableEq

/-- `modules/products/models.py` `Product` (the fields the engine reads).
`product_type` is a plain string compared against
`ProductType.RECTANGULAR_DUCT.value`, which is `"RECTANGULAR_DUCT"`
(see `tests/test_mrp.py`, `streamlit_app.py`). -/
structure Product where
  id : Option Int
  name : String
  product_type : String
  attributes : DuctAttrs
  bom_items : List BOMItem
  deriving Repr, DecidableEq

/-- `modules/work_orders/models.py` `WorkOrderLine` (fields the engine reads).
`id` is `none` for the synthesized legacy fallback line. -/
structure WorkOrderLine where
  id : Option Int
  quantity : Int
  product : Product
  deriving Repr, DecidableEq

/-- `modules/work_orders/models.py` `WorkOrder`: `product_id` and
`quantity` are nullable legacy columns; `product` is the legacy
relationship; `lines` the line collection (`None` modelled as `[]`,
matching `work_order.lines or []`). -/
structure WorkOrder where
  id : Option Int
  project_name : String
  product_id : Option Int
  quantity : Option Int
  product : Option Product
  lines : List WorkOrderLine
  deriving Repr, DecidableEq

/-- Python truthiness of a nullable integer column: `None` and `0` are
falsy. -/
def truthyInt : Option Int → Bool
  | none => false
  | some n => n ≠ 0

/-- `service.py:19-30`: `lines = work_order.lines or []`, and the legacy
single-product fallback guarded by
`work_order.product_id and work_order.quantity and work_order.product`. -/
def effectiveLines (wo : WorkOrder) : Except AppError (List WorkOrderLine) :=
  match wo.lines with
  | [] =>
    match wo.product, truthyInt wo.product_id && truthyInt wo.quantity with
    | some p, true =>
      .ok [{ id := none, quantity := wo.quantity.getD 0, product := p }]
    | _, _ => .error noLinesError
  | l :: ls => .ok (l :: ls)

/-- One entry of `priced_bom_agg` (`service.py:41-43`): after its first
update `cost_per_unit` is always set, so it is modelled as `ℚ`. -/
structure PricedEntry where
  total_quantity : ℚ
  cost_per_unit : ℚ
  total_cost : ℚ
  deriving Repr, DecidableEq

/-- A BOM merge key: `(name, unit or "")` (`service.py:74`). -/
abbrev BomKey := String × String

/-- The BOM aggregation state threaded through the line loop:
`agg_bom_cost`, `priced_bom_agg` and `unpriced_bom_agg`
(insertion-ordered maps modelled as association lists, matching Python
dict insertion order). -/
structure BomState where
  agg_bom_cost : ℚ
  priced : List (BomKey × PricedEntry)
  unpriced : List (BomKey × ℚ)
  deriving Repr, DecidableEq

/-- `service.py:80-83`: `defaultdict` access followed by
`+= total_qty; = cpu; += item_total_cost`, preserving insertion order. -/
def upsertPriced (m : List (BomKey × PricedEntry)) (k : BomKey)
    (dq cpu dc : ℚ) : List (BomKey × PricedEntry) :=
  match m with
  | [] => [(k, ⟨dq, cpu, dc⟩)]
  | (k', e) :: rest =>
    if k' = k then
      (k', ⟨e.total_quantity + dq, cpu, e.total_cost + dc⟩) :: rest
    else
      (k', e) :: upsertPriced rest k dq cpu dc

/-- `service.py:86`: `unpriced_bom_agg[key]["total_quantity"] += total_qty`. -/
def upsertUnpriced (m : List (BomKey × ℚ)) (k : BomKey) (dq : ℚ) :
    List (BomKey × ℚ) :=
  match m with
  | [] => [(k, dq)]
  | (k', q) :: rest =>
    if k' = k then (k', q + dq) :: rest
    else (k', q) :: upsertUnpriced rest k dq

/-- The merge key of a BOM item: `(item.name, item.unit or "")`. -/
def keyOf (item : BOMItem) : BomKey := (item.name, item.unit.getD "")

/-- `service.py:72-86`: the inner BOM loop of one line. -/
def processBOM (qty : Int) (items : List BOMItem) (b : BomState) : BomState :=
  items.foldl
    (fun a item =>
      let total_qty : ℚ := item.quantity_per_unit * (qty : ℚ)
      let key := keyOf item
      match item.cost_per_unit with
      | some cpu =>
        { a with
          agg_bom_cost := a.agg_bom_cost + cpu * total_qty
          priced := upsertPriced a.priced key total_qty cpu (cpu * total_qty) }
      | none =>
        { a with unpriced := upsertUnpriced a.unpriced key total_qty })
    b

/-- The three per-line metrics (both the `per_unit` and the `totals`
sub-records of a line result). -/
structure LineMetrics where
  sheet_area_m2 : ℚ
  sheet_mass_kg : ℚ
  insulation_area_m2 : ℚ
  deriving Repr, DecidableEq

/-- One element of the report's `lines` array (`service.py:88-106`). -/
structure LineResult where
  line_number : Nat
  line_id : Option Int
  product_id : Option Int
  product_name : String
  quantity : Int
  per_unit : LineMetrics
  totals : LineMetrics
  deriving Repr, DecidableEq

/-- The full accumulator of the line loop (`service.py:32-46`). -/
structure ComputeState where
  per_line_results : List LineResult
  agg_sheet_area : ℚ
  agg_sheet_mass : ℚ
  agg_insulation_area : ℚ
  total_quantity : Int
  bom : BomState
  deriving Repr, DecidableEq

/-- The initial accumulator (`service.py:32-46`). -/
def initState : ComputeState :=
  { per_line_results := []
    agg_sheet_area := 0
    agg_sheet_mass := 0
    agg_insulation_area := 0
    total_quantity := 0
    bom := { agg_bom_cost := 0, priced := [], unpriced := [] } }

/-- The per-line result record appended at `service.py:88-106`, as a
function of the validated spec. -/
def mkLineResult (cfg : Settings) (lineNo : Nat) (line : WorkOrderLine)
    (spec : RectangularDuctSpec) : LineResult :=
  let base_sheet_area :=
    2 * (spec.width_mm + spec.height_mm) * spec.length_mm / 1000000
  let sheet_area_per_unit := base_sheet_area * (1 + cfg.waste_factor)
  let sheet_mass_per_unit :=
    sheet_area_per_unit * (spec.thickness_mm / 1000) * cfg.steel_density_kg_m3
  let insulation_area_per_unit :=
    if spec.insulation_enabled then sheet_area_per_unit else 0
  { line_number := lineNo
    line_id := line.id
    product_id := line.product.id
    product_name := line.product.name
    quantity := line.quantity
    per_unit :=
      { sheet_area_m2 := sheet_area_per_unit
        sheet_mass_kg := sheet_mass_per_unit
        insulation_area_m2 := insulation_area_per_unit }
    totals :=
      { sheet_area_m2 := sheet_area_per_unit * (line.quantity : ℚ)
        sheet_mass_kg := sheet_mass_per_unit * (line.quantity : ℚ)
        insulation_area_m2 := insulation_area_per_unit * (line.quantity : ℚ) } }

/-- The accumulator after one successful loop iteration
(`service.py:57-106`). -/
def stepState (cfg : Settings) (lineNo : Nat) (line : WorkOrderLine)
    (spec : RectangularDuctSpec) (st : ComputeState) : ComputeState :=
  let res := mkLineResult cfg lineNo line spec
  { per_line_results := st.per_line_results ++ [res]
    agg_sheet_area := st.agg_sheet_area + res.totals.sheet_area_m2
    agg_sheet_mass := st.agg_sheet_mass + res.totals.sheet_mass_kg
    agg_insulation_area :=
      st.agg_insulation_area + res.totals.insulation_area_m2
    total_quantity := st.total_quantity + line.quantity
    bom := processBOM line.quantity line.product.bom_items st.bom }

/-- `service.py:48-106`: the body of the line loop for one line. -/
def processLine (cfg : Settings) (lineNo : Nat) (line : WorkOrderLine)
    (st : ComputeState) : Except AppError ComputeState :=
  let product := line.product
  if product.product_type ≠ "RECTANGULAR_DUCT" then
    .error unsupportedTypeError
  else
    match parseDuctSpec product.attributes with
    | none => .error invalidGeometryError
    | some spec => .ok (stepState cfg lineNo line spec st)

/-- `for line_number, line in enumerate(lines, start=1)`, aborting on the
first failing line. -/
def processLines (cfg : Settings) (lineNo : Nat) :
    List WorkOrderLine → ComputeState → Except AppError ComputeState
  | [], st => .ok st
  | line :: rest, st => do
    let st' ← processLine cfg lineNo line st
    processLines cfg (lineNo + 1) rest st'

/-- One element of `bom_summary.priced_items` (`service.py:109-121`). -/
structure PricedItem where
  name : String
  unit : String
  total_quantity : ℚ
  cost_per_unit : ℚ
  total_cost : ℚ
  cost_share_pct : ℚ
  deriving Repr, DecidableEq

/-- One element of `bom_summary.unpriced_items` (`service.py:127-135`). -/
structure UnpricedItem where
  name : String
  unit : String
  total_quantity : ℚ
  deriving Repr, DecidableEq

/-- The report header (`service.py:143-149`). -/
structure Header where
  project_name : String
  work_order_id : Option Int
  generated_at : String
  line_count : Nat
  total_quantity : Int
  deriving Repr, DecidableEq

/-- `summary.material` (`service.py:151-155`). -/
structure MaterialSummary where
  sheet_area_m2 : ℚ
  sheet_mass_kg : ℚ
  insulation_area_m2 : ℚ
  deriving Repr, DecidableEq

/-- `summary.cost` (`service.py:156-161`). -/
structure CostSummary where
  bom_total : ℚ
  items_with_cost : Nat
  items_missing_cost : Nat
  cost_complete : Bool
  deriving Repr, DecidableEq

/-- The report summary section. -/
structure Summary where
  material : MaterialSummary
  cost : CostSummary
  deriving Repr, DecidableEq

/-- `bom_summary.metrics` (`service.py:165-171`). -/
structure BomMetrics where
  total_item_count : Nat
  priced_item_count : Nat
  unpriced_item_count : Nat
  total_cost : ℚ
  cost_completeness_pct : ℚ
  deriving Repr, DecidableEq

/-- The `bom_summary` section. -/
structure BomSummary where
  metrics : BomMetrics
  priced_items : List PricedItem
  unpriced_items : List UnpricedItem
  deriving Repr, DecidableEq

/-- The four-section report (`service.py:142-176`). -/
structure Report where
  header : Header
  summary : Summary
  lines : List LineResult
  bom_summary : BomSummary
  notes : String
  deriving Repr, DecidableEq

/-- `service.py:111`: the cost share of one priced entry. -/
def costShare (bomTotal total_cost : ℚ) : ℚ :=
  if 0 < bomTotal then total_cost / bomTotal * 100 else 0

/-- One row of `priced_items` built from one aggregation entry
(`service.py:112-121`). -/
def toPricedItem (bomTotal : ℚ) (ke : BomKey × PricedEntry) : PricedItem :=
  { name := ke.1.1
    unit := ke.1.2
    total_quantity := ke.2.total_quantity
    cost_per_unit := ke.2.cost_per_unit
    total_cost := ke.2.total_cost
    cost_share_pct := costShare bomTotal ke.2.total_cost }

/-- `service.py:109-121`: the priced items list before sorting, in the
insertion order of `priced_bom_agg`. -/
def pricedItemsUnsorted (bomTotal : ℚ) (m : List (BomKey × PricedEntry)) :
    List PricedItem :=
  m.map (toPricedItem bomTotal)

/-- `service.py:124`: stable insertion step for the descending sort by
`total_cost` (Python's `list.sort(key=..., reverse=True)` is stable). -/
def insertDesc (x : PricedItem) : List PricedItem → List PricedItem
  | [] => [x]
  | y :: ys =>
    if y.total_cost ≤ x.total_cost then x :: y :: ys
    else y :: insertDesc x ys

/-- Stable descending sort by `total_cost` (`service.py:124`). -/
def sortPricedDesc : List PricedItem → List PricedItem
  | [] => []
  | x :: xs => insertDesc x (sortPricedDesc xs)

/-- One row of `unpriced_items` (`service.py:129-135`). -/
def toUnpricedItem (kq : BomKey × ℚ) : UnpricedItem :=
  { name := kq.1.1, unit := kq.1.2, total_quantity := kq.2 }

/-- `service.py:127-135`: the unpriced items list, in insertion order. -/
def unpricedItemsList (m : List (BomKey × ℚ)) : List UnpricedItem :=
  m.map toUnpricedItem

/-- `service.py:108-177`: post-pass assembly of the report from the final
accumulator. -/
def assemble (wo : WorkOrder) (now : String) (lines : List WorkOrderLine)
    (st : ComputeState) : Report :=
  let priced_items := sortPricedDesc
    (pricedItemsUnsorted st.bom.agg_bom_cost st.bom.priced)
  let unpriced_items := unpricedItemsList st.bom.unpriced
  let priced_item_count := priced_items.length
  let unpriced_item_count := unpriced_items.length
  let total_item_count := priced_item_count + unpriced_item_count
  let cost_completeness_pct : ℚ :=
    if 0 < total_item_count then
      (priced_item_count : ℚ) / (total_item_count : ℚ) * 100
    else 100
  { header :=
      { project_name := wo.project_name
        work_order_id := wo.id
        generated_at := now
        line_count := lines.length
        total_quantity := st.total_quantity }
    summary :=
      { material :=
          { sheet_area_m2 := st.agg_sheet_area
            sheet_mass_kg := st.agg_sheet_mass
            insulation_area_m2 := st.agg_insulation_area }
        cost :=
          { bom_total := st.bom.agg_bom_cost
            items_with_cost := priced_item_count
            items_missing_cost := unpriced_item_count
            cost_complete := unpriced_item_count == 0 } }
    lines := st.per_line_results
    bom_summary :=
      { metrics :=
          { total_item_count := total_item_count
            priced_item_count := priced_item_count
            unpriced_item_count := unpriced_item_count
            total_cost := st.bom.agg_bom_cost
            cost_completeness_pct := cost_completeness_pct }
        priced_items := priced_items
        unpriced_items := unpriced_items }
    notes := "Hesaplama dikdörtgen kanal için yapılmıştır." }

/-- `MRPService.compute_work_order` (`service.py:18-177`), with the wall
clock passed explicitly as `now`. -/
def compute_work_order (cfg : Settings) (wo : WorkOrder) (now : String) :
    Except AppError Report := do
  let lines ← effectiveLines wo
  let st ← processLines cfg 1 lines initState
  .ok (assemble wo now lines st)

/-! ## The BOM contribution stream

The inner loops of `service.py:48-86` process, line by line and BOM item
by BOM item, a stream of contributions `(key, quantity_per_unit *
line_quantity, cost_per_unit)`.  The lemmas below characterize the two
aggregation maps as functions of that stream. -/

/-- One BOM contribution: the data of `service.py:73-74` for a single
item of a single line. -/
structure Contribution where
  key : BomKey
  qty : ℚ
  cost : Option ℚ
  deriving Repr, DecidableEq

/-- The contributions of one line, in BOM-entry order. -/
def lineContribs (line : WorkOrderLine) : List Contribution :=
  line.product.bom_items.map fun item =>
    { key := keyOf item
      qty := item.quantity_per_unit * (line.quantity : ℚ)
      cost := item.cost_per_unit }

/-- The contributions of all lines, in line-then-BOM-entry order. -/
def contribStream (lines : List WorkOrderLine) : List Contribution :=
  (lines.map lineContribs).flatten

/-- The effect of one contribution on the BOM aggregation state
(`service.py:76-86`). -/
def bomStep (a : BomState) (c : Contribution) : BomState :=
  match c.cost with
  | some cpu =>
    { a with
      agg_bom_cost := a.agg_bom_cost + cpu * c.qty
      priced := upsertPriced a.priced c.key c.qty cpu (cpu * c.qty) }
  | none => { a with unpriced := upsertUnpriced a.unpriced c.key c.qty }

/-- Folding the whole contribution stream. -/
def bomFold (s : List Contribution) (a : BomState) : BomState :=
  s.foldl bomStep a

/-- All contributions with a given key. -/
def contribsAt (s : List Contribution) (k : BomKey) : List Contribution :=
  s.filter fun c => c.key == k

/-- The `(qty, cost_per_unit)` pairs of the priced contributions with a
given key, in processing order. -/
def pricedAt (s : List Contribution) (k : BomKey) : List (ℚ × ℚ) :=
  s.filterMap fun c =>
    match c.cost with
    | some cpu => if c.key = k then some (c.qty, cpu) else none
    | none => none

/-- The quantities of the unpriced contributions with a given key. -/
def unpricedAt (s : List Contribution) (k : BomKey) : List ℚ :=
  s.filterMap fun c =>
    match c.cost with
    | some _ => none
    | none => if c.key = k then some c.qty else none

/-- The grand total cost of a stream: the sum of `cost_per_unit *
total_qty` over the priced contributions (`service.py:78-79`). -/
def pricedTotal (s : List Contribution) : ℚ :=
  (s.map fun c =>
    match c.cost with
    | some cpu => cpu * c.qty
    | none => 0).sum

/-- The aggregate of a non-empty run of priced `(qty, cost)` pairs:
summed quantities, last-seen cost, summed costs. -/
def pSum (l : List (ℚ × ℚ)) : PricedEntry :=
  { total_quantity := (l.map Prod.fst).sum
    cost_per_unit := ((l.map Prod.snd).getLast?).getD 0
    total_cost := (l.map fun p => p.2 * p.1).sum }

/-- The priced-map entry a stream produces for a key, if any. -/
def pSummary (s : List Contribution) (k : BomKey) : Option PricedEntry :=
  match pricedAt s k with
  | [] => none
  | l => some (pSum l)

/-- Merging two priced aggregates: quantities and costs add, the later
`cost_per_unit` wins. -/
def pCombine : Option PricedEntry → Option PricedEntry → Option PricedEntry
  | a, none => a
  | none, some e => some e
  | some a, some e =>
    some
      { total_quantity := a.total_quantity + e.total_quantity
        cost_per_unit := e.cost_per_unit
        total_cost := a.total_cost + e.total_cost }

/-- The unpriced-map entry a stream produces for a key, if any. -/
def uSummary (s : List Contribution) (k : BomKey) : Option ℚ :=
  match unpricedAt s k with
  | [] => none
  | l => some l.sum

/-- Merging two unpriced aggregates. -/
def uCombine : Option ℚ → Option ℚ → Option ℚ
  | a, none => a
  | none, some q => some q
  | some a, some q => some (a + q)

/-- Association-list lookup (Python `dict` access by key). -/
def findEntry {α : Type} (k : BomKey) : List (BomKey × α) → Option α
  | [] => none
  | (k', v) :: rest => if k' = k then some v else findEntry k rest

/-- The sum of `total_cost` over a priced map. -/
def totalCostOf (m : List (BomKey × PricedEntry)) : ℚ :=
  (m.map fun ke => ke.2.total_cost).sum

theorem processBOM_eq_bomFold (line : WorkOrderLine) (b : BomState) :
    processBOM line.quantity line.product.bom_items b =
      bomFold (lineContribs line) b := by
  unfold processBOM bomFold lineContribs
  rw [List.foldl_map]
  rfl

theorem bomFold_append (s₁ s₂ : List Contribution) (b : BomState) :
    bomFold (s₁ ++ s₂) b = bomFold s₂ (bomFold s₁ b) :=
  List.foldl_append ..

theorem findEntry_upsertPriced (m : List (BomKey × PricedEntry)) (k k' : BomKey)
    (dq cpu dc : ℚ) :
    findEntry k (upsertPriced m k' dq cpu dc) =
      if k' = k then pCombine (findEntry k m) (some ⟨dq, cpu, dc⟩)
      else findEntry k m := by
  induction m with
  | nil =>
    by_cases h : k' = k <;> simp [upsertPriced, findEntry, pCombine, h]
  | cons kv rest ih =>
    obtain ⟨k₀, e⟩ := kv
    by_cases h0 : k₀ = k'
    · subst h0
      by_cases h : k₀ = k
      · subst h
        simp [upsertPriced, findEntry, pCombine]
      · simp [upsertPriced, findEntry, h]
    · by_cases h : k₀ = k
      · subst h
        have hk : ¬ k' = k₀ := fun hc => h0 hc.symm
        simp [upsertPriced, findEntry, h0, hk]
      · simp [upsertPriced, findEntry, h0, h, ih]

theorem findEntry_upsertUnpriced (m : List (BomKey × ℚ)) (k k' : BomKey)
    (dq : ℚ) :
    findEntry k (upsertUnpriced m k' dq) =
      if k' = k then uCombine (findEntry k m) (some dq)
      else findEntry k m := by
  induction m with
  | nil =>
    by_cases h : k' = k <;> simp [upsertUnpriced, findEntry, uCombine, h]
  | cons kv rest ih =>
    obtain ⟨k₀, q⟩ := kv
    by_cases h0 : k₀ = k'
    · subst h0
      by_cases h : k₀ = k
      · subst h
        simp [upsertUnpriced, findEntry, uCombine]
      · simp [upsertUnpriced, findEntry, h]
    · by_cases h : k₀ = k
      · subst h
        have hk : ¬ k' = k₀ := fun hc => h0 hc.symm
        simp [upsertUnpriced, findEntry, h0, hk]
      · simp [upsertUnpriced, findEntry, h0, h, ih]

theorem pCombine_assoc (a b c : Option PricedEntry) :
    pCombine (pCombine a b) c = pCombine a (pCombine b c) := by
  cases a <;> cases b <;> cases c <;> simp [pCombine, add_assoc]

theorem uCombine_assoc (a b c : Option ℚ) :
    uCombine (uCombine a b) c = uCombine a (uCombine b c) := by
  cases a <;> cases b <;> cases c <;> simp [uCombine, add_assoc]

theorem pCombine_none_right (a : Option PricedEntry) : pCombine a none = a := by
  cases a <;> rfl

theorem uCombine_none_right (a : Option ℚ) : uCombine a none = a := by
  cases a <;> rfl

theorem pSummary_cons (c : Contribution) (s : List Contribution) (k : BomKey) :
    pSummary (c :: s) k =
      match c.cost with
      | some cpu =>
        if c.key = k then
          pCombine (some ⟨c.qty, cpu, cpu * c.qty⟩) (pSummary s k)
        else pSummary s k
      | none => pSummary s k := by
  cases hc : c.cost with
  | none => simp [pSummary, pricedAt, List.filterMap_cons, hc]
  | some cpu =>
    by_cases hk : c.key = k
    · have hp : pricedAt (c :: s) k = (c.qty, cpu) :: pricedAt s k := by
        simp [pricedAt, List.filterMap_cons, hc, hk]
      cases hl : pricedAt s k with
      | nil => simp [pSummary, hp, hl, hc, hk, pCombine, pSum]
      | cons x xs =>
        simp only [pSummary, hp, hl, hc, hk, if_pos]
        simp [pCombine, pSum, List.getLast?_cons_cons]
    · simp [pSummary, pricedAt, List.filterMap_cons, hc, hk]

theorem uSummary_cons (c : Contribution) (s : List Contribution) (k : BomKey) :
    uSummary (c :: s) k =
      match c.cost with
      | some _ => uSummary s k
      | none =>
        if c.key = k then uCombine (some c.qty) (uSummary s k)
        else uSummary s k := by
  cases hc : c.cost with
  | some cpu => simp [uSummary, unpricedAt, List.filterMap_cons, hc]
  | none =>
    by_cases hk : c.key = k
    · have hp : unpricedAt (c :: s) k = c.qty :: unpricedAt s k := by
        simp [unpricedAt, List.filterMap_cons, hc, hk]
      cases hl : unpricedAt s k with
      | nil => simp [uSummary, hp, hl, hk, uCombine]
      | cons x xs => simp [uSummary, hp, hl, hk, uCombine]
    · simp [uSummary, unpricedAt, List.filterMap_cons, hc, hk]

/-- The priced map after folding a stream: looking up any key gives the
merge of what the initial state held with the stream's own aggregate for
that key. -/
theorem bomFold_findEntry_priced (s : List Contribution) (b : BomState)
    (k : BomKey) :
    findEntry k (bomFold s b).priced =
      pCombine (findEntry k b.priced) (pSummary s k) := by
  induction s generalizing b with
  | nil => simp [bomFold, pSummary, pricedAt, pCombine_none_right]
  | cons c s ih =>
    have hstep : bomFold (c :: s) b = bomFold s (bomStep b c) := rfl
    rw [hstep, ih, pSummary_cons]
    cases hc : c.cost with
    | none => simp [bomStep, hc]
    | some cpu =>
      simp only [bomStep, hc]
      rw [findEntry_upsertPriced]
      by_cases hk : c.key = k
      · simp [hk, pCombine_assoc]
      · simp [hk]

/-- The unpriced analogue of `bomFold_findEntry_priced`. -/
theorem bomFold_findEntry_unpriced (s : List Contribution) (b : BomState)
    (k : BomKey) :
    findEntry k (bomFold s b).unpriced =
      uCombine (findEntry k b.unpriced) (uSummary s k) := by
  induction s generalizing b with
  | nil => simp [bomFold, uSummary, unpricedAt, uCombine_none_right]
  | cons c s ih =>
    have hstep : bomFold (c :: s) b = bomFold s (bomStep b c) := rfl
    rw [hstep, ih, uSummary_cons]
    cases hc : c.cost with
    | some cpu => simp [bomStep, hc]
    | none =>
      simp only [bomStep, hc]
      rw [findEntry_upsertUnpriced]
      by_cases hk : c.key = k
      · simp [hk, uCombine_assoc]
      · simp [hk]

/-- `agg_bom_cost` accumulates exactly the priced contributions. -/
theorem bomFold_agg (s : List Contribution) (b : BomState) :
    (bomFold s b).agg_bom_cost = b.agg_bom_cost + pricedTotal s := by
  induction s generalizing b with
  | nil => simp [bomFold, pricedTotal]
  | cons c s ih =>
    have hstep : bomFold (c :: s) b = bomFold s (bomStep b c) := rfl
    rw [hstep, ih]
    cases hc : c.cost with
    | none => simp [bomStep, hc, pricedTotal, add_assoc]
    | some cpu => simp [bomStep, hc, pricedTotal, add_assoc]

theorem totalCostOf_upsertPriced (m : List (BomKey × PricedEntry))
    (k : BomKey) (dq cpu dc : ℚ) :
    totalCostOf (upsertPriced m k dq cpu dc) = totalCostOf m + dc := by
  induction m with
  | nil => simp [upsertPriced, totalCostOf]
  | cons kv rest ih =>
    obtain ⟨k₀, e⟩ := kv
    by_cases h : k₀ = k
    · simp [upsertPriced, h, totalCostOf]
      ring
    · simp [upsertPriced, h, totalCostOf] at ih ⊢
      rw [ih]
      ring

/-- The sum of the priced map's `total_cost` fields grows with exactly
the priced contributions — in step with `agg_bom_cost`. -/
theorem bomFold_totalCost (s : List Contribution) (b : BomState) :
    totalCostOf (bomFold s b).priced = totalCostOf b.priced + pricedTotal s := by
  induction s generalizing b with
  | nil => simp [bomFold, pricedTotal]
  | cons c s ih =>
    have hstep : bomFold (c :: s) b = bomFold s (bomStep b c) := rfl
    rw [hstep, ih]
    cases hc : c.cost with
    | none => simp [bomStep, hc, pricedTotal, add_assoc]
    | some cpu =>
      simp [bomStep, hc, pricedTotal, totalCostOf_upsertPriced, add_assoc]

theorem findEntry_eq_none {α : Type} (k : BomKey) (m : List (BomKey × α)) :
    findEntry k m = none ↔ k ∉ m.map Prod.fst := by
  induction m with
  | nil => simp [findEntry]
  | cons kv rest ih =>
    obtain ⟨k₀, v⟩ := kv
    by_cases h : k₀ = k
    · subst h
      simp [findEntry]
    · have h' : k ≠ k₀ := fun hc => h hc.symm
      simp [findEntry, h, ih, h']

theorem keys_upsertPriced (m : List (BomKey × PricedEntry)) (k : BomKey)
    (dq cpu dc : ℚ) :
    (upsertPriced m k dq cpu dc).map Prod.fst =
      if findEntry k m = none then m.map Prod.fst ++ [k]
      else m.map Prod.fst := by
  induction m with
  | nil => simp [upsertPriced, findEntry]
  | cons kv rest ih =>
    obtain ⟨k₀, e⟩ := kv
    by_cases h : k₀ = k
    · simp [upsertPriced, findEntry, h]
    · simp [upsertPriced, findEntry, h, ih]
      by_cases hn : findEntry k rest = none <;> simp [hn]

theorem keys_upsertUnpriced (m : List (BomKey × ℚ)) (k : BomKey) (dq : ℚ) :
    (upsertUnpriced m k dq).map Prod.fst =
      if findEntry k m = none then m.map Prod.fst ++ [k]
      else m.map Prod.fst := by
  induction m with
  | nil => simp [upsertUnpriced, findEntry]
  | cons kv rest ih =>
    obtain ⟨k₀, q⟩ := kv
    by_cases h : k₀ = k
    · simp [upsertUnpriced, findEntry, h]
    · simp [upsertUnpriced, findEntry, h, ih]
      by_cases hn : findEntry k rest = none <;> simp [hn]

theorem nodupKeys_upsertPriced (m : List (BomKey × PricedEntry)) (k : BomKey)
    (dq cpu dc : ℚ) (h : (m.map Prod.fst).Nodup) :
    ((upsertPriced m k dq cpu dc).map Prod.fst).Nodup := by
  rw [keys_upsertPriced]
  by_cases hn : findEntry k m = none
  · have hk : k ∉ m.map Prod.fst := (findEntry_eq_none k m).mp hn
    simp [hn, List.nodup_append, h, hk]
  · simpa [hn] using h

theorem nodupKeys_upsertUnpriced (m : List (BomKey × ℚ)) (k : BomKey) (dq : ℚ)
    (h : (m.map Prod.fst).Nodup) :
    ((upsertUnpriced m k dq).map Prod.fst).Nodup := by
  rw [keys_upsertUnpriced]
  by_cases hn : findEntry k m = none
  · have hk : k ∉ m.map Prod.fst := (findEntry_eq_none k m).mp hn
    simp [hn, List.nodup_append, h, hk]
  · simpa [hn] using h

theorem bomFold_nodupKeys (s : List Contribution) (b : BomState)
    (hp : (b.priced.map Prod.fst).Nodup) (hu : (b.unpriced.map Prod.fst).Nodup) :
    ((bomFold s b).priced.map Prod.fst).Nodup ∧
      ((bomFold s b).unpriced.map Prod.fst).Nodup := by
  induction s generalizing b with
  | nil => exact ⟨hp, hu⟩
  | cons c s ih =>
    have hstep : bomFold (c :: s) b = bomFold s (bomStep b c) := rfl
    rw [hstep]
    cases hc : c.cost with
    | some cpu =>
      exact ih _ (by simpa [bomStep, hc] using
        nodupKeys_upsertPriced b.priced c.key c.qty cpu (cpu * c.qty) hp)
        (by simpa [bomStep, hc] using hu)
    | none =>
      exact ih _ (by simpa [bomStep, hc] using hp)
        (by simpa [bomStep, hc] using
          nodupKeys_upsertUnpriced b.unpriced c.key c.qty hu)

theorem filter_keys_eq_nil {α : Type} (m : List (BomKey × α)) (k : BomKey)
    (h : k ∉ m.map Prod.fst) :
    m.filter (fun kv => kv.1 == k) = [] := by
  induction m with
  | nil => rfl
  | cons kv rest ih =>
    obtain ⟨k₀, v⟩ := kv
    simp only [List.map_cons, List.mem_cons, not_or] at h
    have hne : ¬ (k₀ == k) = true := by
      simp only [beq_iff_eq]
      exact fun hc => h.1 (hc ▸ rfl)
    simp [List.filter_cons, hne, ih h.2]

/-- In an association list with no duplicate keys, filtering by a key
yields exactly the looked-up entry (or nothing). -/
theorem filter_keys_of_nodup {α : Type} (m : List (BomKey × α)) (k : BomKey)
    (h : (m.map Prod.fst).Nodup) :
    m.filter (fun kv => kv.1 == k) =
      match findEntry k m with
      | some v => [(k, v)]
      | none => [] := by
  induction m with
  | nil => rfl
  | cons kv rest ih =>
    obtain ⟨k₀, v⟩ := kv
    simp only [List.map_cons, List.nodup_cons] at h
    by_cases hk : k₀ = k
    · subst hk
      have : rest.filter (fun kv => kv.1 == k₀) = [] :=
        filter_keys_eq_nil rest k₀ h.1
      simp [List.filter_cons, findEntry, this]
    · have hne : ¬ (k₀ == k) = true := by
        simp only [beq_iff_eq]; exact hk
      simp [List.filter_cons, hne, findEntry, hk, ih h.2]

/-! ## Characterizing the line loop and `compute_work_order` -/

theorem ok_bind {α β : Type} (a : α) (f : α → Except AppError β) :
    ((Except.ok a : Except AppError α) >>= f) = f a := rfl

theorem error_bind {α β : Type} (e : AppError) (f : α → Except AppError β) :
    ((Except.error e : Except AppError α) >>= f) = Except.error e := rfl

/-- `service.py:22`: the legacy fallback guard
`work_order.product_id and work_order.quantity and work_order.product`. -/
def legacyFallbackOk (wo : WorkOrder) : Bool :=
  truthyInt wo.product_id && truthyInt wo.quantity && wo.product.isSome

/-- A line that passes the per-line validation of `service.py:50-55`. -/
def goodLine (line : WorkOrderLine) : Prop :=
  line.product.product_type = "RECTANGULAR_DUCT" ∧
    (parseDuctSpec line.product.attributes).isSome = true

theorem processLine_eq_ok (cfg : Settings) (n : Nat) (line : WorkOrderLine)
    (st st' : ComputeState) :
    processLine cfg n line st = .ok st' ↔
      ∃ spec, line.product.product_type = "RECTANGULAR_DUCT" ∧
        parseDuctSpec line.product.attributes = some spec ∧
        st' = stepState cfg n line spec st := by
  unfold processLine
  by_cases ht : line.product.product_type = "RECTANGULAR_DUCT"
  · cases hp : parseDuctSpec line.product.attributes with
    | none => simp [ht, hp]
    | some spec => simp [ht, hp, eq_comm]
  · simp [ht]

theorem processLine_eq_error (cfg : Settings) (n : Nat) (line : WorkOrderLine)
    (st : ComputeState) (e : AppError) :
    processLine cfg n line st = .error e ↔
      (line.product.product_type ≠ "RECTANGULAR_DUCT" ∧
        e = unsupportedTypeError) ∨
      (line.product.product_type = "RECTANGULAR_DUCT" ∧
        parseDuctSpec line.product.attributes = none ∧
        e = invalidGeometryError) := by
  unfold processLine
  by_cases ht : line.product.product_type = "RECTANGULAR_DUCT"
  · cases hp : parseDuctSpec line.product.attributes with
    | none => simp [ht, hp, eq_comm]
    | some spec => simp [ht, hp]
  · simp [ht, eq_comm]

theorem processLine_isOk_iff (cfg : Settings) (n : Nat) (line : WorkOrderLine)
    (st : ComputeState) :
    (∃ st', processLine cfg n line st = .ok st') ↔ goodLine line := by
  unfold goodLine
  constructor
  · rintro ⟨st', h⟩
    obtain ⟨spec, ht, hp, -⟩ := (processLine_eq_ok cfg n line st st').mp h
    exact ⟨ht, by simp [hp]⟩
  · rintro ⟨ht, hp⟩
    obtain ⟨spec, hspec⟩ := Option.isSome_iff_exists.mp hp
    exact ⟨stepState cfg n line spec st,
      (processLine_eq_ok cfg n line st _).mpr ⟨spec, ht, hspec, rfl⟩⟩

theorem processLines_isOk_iff (cfg : Settings) (n : Nat)
    (ls : List WorkOrderLine) (st : ComputeState) :
    (∃ st', processLines cfg n ls st = .ok st') ↔ ∀ line ∈ ls, goodLine line := by
  induction ls generalizing n st with
  | nil => simp [processLines]
  | cons line rest ih =>
    cases hl : processLine cfg n line st with
    | error e =>
      have hng : ¬ goodLine line := by
        intro hg
        obtain ⟨st', h⟩ := (processLine_isOk_iff cfg n line st).mpr hg
        rw [hl] at h
        exact Except.noConfusion h
      simp [processLines, hl, error_bind, hng]
    | ok st₁ =>
      have hg : goodLine line :=
        (processLine_isOk_iff cfg n line st).mp ⟨st₁, hl⟩
      simp [processLines, hl, ok_bind, hg, ih]

theorem processLines_error_kind (cfg : Settings) (n : Nat)
    (ls : List WorkOrderLine) (st : ComputeState) (e : AppError)
    (h : processLines cfg n ls st = .error e) :
    e = unsupportedTypeError ∨ e = invalidGeometryError := by
  induction ls generalizing n st with
  | nil => exact absurd h (by simp [processLines])
  | cons line rest ih =>
    cases hl : processLine cfg n line st with
    | error e' =>
      rw [processLines, hl, error_bind] at h
      injection h with he'
      rcases (processLine_eq_error cfg n line st e').mp hl with ⟨-, he⟩ | ⟨-, -, he⟩
      · exact Or.inl (he' ▸ he)
      · exact Or.inr (he' ▸ he)
    | ok st₁ =>
      rw [processLines, hl, ok_bind] at h
      exact ih _ _ h

/-- On success, `per_line_results` grows by exactly one record per line,
in order, each determined by the validated spec of that line. -/
theorem processLines_ok_results (cfg : Settings) (n : Nat)
    (ls : List WorkOrderLine) (st st' : ComputeState)
    (h : processLines cfg n ls st = .ok st') :
    ∃ rs, st'.per_line_results = st.per_line_results ++ rs ∧
      rs.length = ls.length ∧
      ∀ i line, ls[i]? = some line → ∃ spec,
        parseDuctSpec line.product.attributes = some spec ∧
        rs[i]? = some (mkLineResult cfg (n + i) line spec) := by
  induction ls generalizing n st with
  | nil =>
    rw [processLines] at h
    cases h
    exact ⟨[], by simp⟩
  | cons line rest ih =>
    cases hl : processLine cfg n line st with
    | error e =>
      rw [processLines, hl, error_bind] at h
      exact Except.noConfusion h
    | ok st₁ =>
      rw [processLines, hl, ok_bind] at h
      obtain ⟨spec, ht, hp, hst₁⟩ := (processLine_eq_ok cfg n line st st₁).mp hl
      obtain ⟨rs', hplr, hlen, hidx⟩ := ih (n + 1) st₁ h
      refine ⟨mkLineResult cfg n line spec :: rs', ?_, by simp [hlen], ?_⟩
      · rw [hplr, hst₁]
        simp [stepState, mkLineResult]
      · intro i l hi
        cases i with
        | zero =>
          rw [List.getElem?_cons_zero] at hi
          cases hi
          exact ⟨spec, hp, by simp⟩
        | succ i =>
          simp only [List.getElem?_cons_succ] at hi ⊢
          obtain ⟨spec', hp', hr⟩ := hidx i l hi
          have harith : n + (i + 1) = n + 1 + i := by omega
          exact ⟨spec', hp', by rw [harith]; exact hr⟩

/-- On success, the final BOM aggregation state is the fold of the whole
contribution stream. -/
theorem processLines_ok_bom (cfg : Settings) (n : Nat)
    (ls : List WorkOrderLine) (st st' : ComputeState)
    (h : processLines cfg n ls st = .ok st') :
    st'.bom = bomFold (contribStream ls) st.bom := by
  induction ls generalizing n st with
  | nil =>
    rw [processLines] at h
    cases h
    rfl
  | cons line rest ih =>
    cases hl : processLine cfg n line st with
    | error e =>
      rw [processLines, hl, error_bind] at h
      exact Except.noConfusion h
    | ok st₁ =>
      rw [processLines, hl, ok_bind] at h
      obtain ⟨spec, ht, hp, hst₁⟩ := (processLine_eq_ok cfg n line st st₁).mp hl
      have hbom₁ : st₁.bom = bomFold (lineContribs line) st.bom := by
        rw [hst₁]
        simp [stepState, processBOM_eq_bomFold]
      have hstream : contribStream (line :: rest) =
          lineContribs line ++ contribStream rest := by
        simp [contribStream]
      rw [ih (n + 1) st₁ h, hbom₁, hstream, bomFold_append]

theorem compute_eq_ok_iff (cfg : Settings) (wo : WorkOrder) (now : String)
    (r : Report) :
    compute_work_order cfg wo now = .ok r ↔
      ∃ ls st, effectiveLines wo = .ok ls ∧
        processLines cfg 1 ls initState = .ok st ∧
        r = assemble wo now ls st := by
  unfold compute_work_order
  cases heff : effectiveLines wo with
  | error e => simp [error_bind]
  | ok ls =>
    rw [ok_bind]
    cases hst : processLines cfg 1 ls initState with
    | error e => simp [error_bind, hst]
    | ok st => simp [ok_bind, hst, eq_comm]

theorem compute_eq_error_iff (cfg : Settings) (wo : WorkOrder) (now : String)
    (e : AppError) :
    compute_work_order cfg wo now = .error e ↔
      effectiveLines wo = .error e ∨
      ∃ ls, effectiveLines wo = .ok ls ∧
        processLines cfg 1 ls initState = .error e := by
  unfold compute_work_order
  cases heff : effectiveLines wo with
  | error e' => simp [error_bind, eq_comm]
  | ok ls =>
    rw [ok_bind]
    cases hst : processLines cfg 1 ls initState with
    | error e' => simp [error_bind, hst, eq_comm]
    | ok st => simp [ok_bind, hst]

theorem effectiveLines_eq_error (wo : WorkOrder) (e : AppError) :
    effectiveLines wo = .error e ↔
      wo.lines = [] ∧ legacyFallbackOk wo = false ∧ e = noLinesError := by
  unfold effectiveLines legacyFallbackOk
  cases hl : wo.lines with
  | cons l rest => simp
  | nil =>
    cases hp : wo.product with
    | none =>
      cases hb : truthyInt wo.product_id && truthyInt wo.quantity <;>
        simp [eq_comm]
    | some p =>
      cases hb : truthyInt wo.product_id && truthyInt wo.quantity with
      | true => simp
      | false => simp [eq_comm]

/-! ## The stable descending sort of `service.py:124` -/

theorem insertDesc_perm (x : PricedItem) (l : List PricedItem) :
    (insertDesc x l).Perm (x :: l) := by
  induction l with
  | nil => exact List.Perm.refl _
  | cons y ys ih =>
    unfold insertDesc
    by_cases h : y.total_cost ≤ x.total_cost
    · simp [h]
    · simp only [if_neg h]
      exact (ih.cons y).trans (List.Perm.swap x y ys)

theorem sortPricedDesc_perm (l : List PricedItem) :
    (sortPricedDesc l).Perm l := by
  induction l with
  | nil => exact List.Perm.refl _
  | cons x xs ih =>
    exact (insertDesc_perm x (sortPricedDesc xs)).trans (ih.cons x)

theorem insertDesc_pairwise (x : PricedItem) (l : List PricedItem)
    (h : l.Pairwise (fun a b => b.total_cost ≤ a.total_cost)) :
    (insertDesc x l).Pairwise (fun a b => b.total_cost ≤ a.total_cost) := by
  induction l with
  | nil => simp [insertDesc]
  | cons y ys ih =>
    rw [List.pairwise_cons] at h
    unfold insertDesc
    by_cases hle : y.total_cost ≤ x.total_cost
    · rw [if_pos hle, List.pairwise_cons]
      refine ⟨?_, List.pairwise_cons.mpr h⟩
      intro b hb
      rcases List.mem_cons.mp hb with hb | hb
      · exact hb ▸ hle
      · exact le_trans (h.1 b hb) hle
    · rw [if_neg hle, List.pairwise_cons]
      refine ⟨?_, ih h.2⟩
      intro b hb
      have hb' : b ∈ x :: ys := (insertDesc_perm x ys).mem_iff.mp hb
      rcases List.mem_cons.mp hb' with hb' | hb'
      · exact hb' ▸ le_of_lt (lt_of_not_le hle)
      · exact h.1 b hb'

theorem sortPricedDesc_pairwise (l : List PricedItem) :
    (sortPricedDesc l).Pairwise (fun a b => b.total_cost ≤ a.total_cost) := by
  induction l with
  | nil => simp [sortPricedDesc]
  | cons x xs ih => exact insertDesc_pairwise x _ ih

theorem insertDesc_filter (x : PricedItem) (l : List PricedItem) (c : ℚ) :
    (insertDesc x l).filter (fun it => it.total_cost == c) =
      if x.total_cost = c then
        x :: l.filter (fun it => it.total_cost == c)
      else l.filter (fun it => it.total_cost == c) := by
  induction l with
  | nil =>
    by_cases hx : x.total_cost = c <;>
      simp [insertDesc, List.filter_cons, hx]
  | cons y ys ih =>
    unfold insertDesc
    by_cases hle : y.total_cost ≤ x.total_cost
    · rw [if_pos hle]
      by_cases hx : x.total_cost = c <;> simp [List.filter_cons, hx]
    · rw [if_neg hle]
      by_cases hx : x.total_cost = c
      · have hy : ¬ y.total_cost = c := by
          intro hc
          exact hle (le_of_eq (hc.trans hx.symm))
        simp [List.filter_cons, hy, ih, hx]
      · by_cases hy : y.total_cost = c <;>
          simp [List.filter_cons, hy, hx, ih]

/-- The sort of `service.py:124` is stable: within each `total_cost`
class the order of the unsorted (insertion-ordered) list is kept. -/
theorem sortPricedDesc_filter (l : List PricedItem) (c : ℚ) :
    (sortPricedDesc l).filter (fun it => it.total_cost == c) =
      l.filter (fun it => it.total_cost == c) := by
  induction l with
  | nil => rfl
  | cons x xs ih =>
    rw [sortPricedDesc, insertDesc_filter]
    by_cases hx : x.total_cost = c <;> simp [hx, ih, List.filter_cons]

/-! ## Bridging lemmas towards the claim theorems -/

theorem pCombine_none_left (a : Option PricedEntry) : pCombine none a = a := by
  cases a <;> rfl

theorem uCombine_none_left (a : Option ℚ) : uCombine none a = a := by
  cases a <;> rfl

theorem beq_bomKey (a k : BomKey) : (a == k) = (a.1 == k.1 && a.2 == k.2) := by
  obtain ⟨a1, a2⟩ := a
  obtain ⟨k1, k2⟩ := k
  rfl

theorem pricedItems_filter_key (bomTotal : ℚ)
    (m : List (BomKey × PricedEntry)) (k : BomKey) :
    (pricedItemsUnsorted bomTotal m).filter
        (fun it => it.name == k.1 && it.unit == k.2) =
      (m.filter (fun kv => kv.1 == k)).map (toPricedItem bomTotal) := by
  unfold pricedItemsUnsorted
  rw [List.filter_map]
  rfl

theorem unpricedItems_filter_key (m : List (BomKey × ℚ)) (k : BomKey) :
    (unpricedItemsList m).filter
        (fun it => it.name == k.1 && it.unit == k.2) =
      (m.filter (fun kv => kv.1 == k)).map toUnpricedItem := by
  unfold unpricedItemsList
  rw [List.filter_map]
  rfl

theorem pricedAt_length_all_priced (s : List Contribution) (k : BomKey)
    (hall : ∀ c ∈ s, c.key = k → c.cost.isSome = true) :
    (pricedAt s k).length = (contribsAt s k).length := by
  induction s with
  | nil => rfl
  | cons c s ih =>
    have hall' : ∀ c' ∈ s, c'.key = k → c'.cost.isSome = true :=
      fun c' hc' => hall c' (List.mem_cons_of_mem c hc')
    by_cases hk : c.key = k
    · obtain ⟨cpu, hcpu⟩ :=
        Option.isSome_iff_exists.mp (hall c (List.mem_cons_self c s) hk)
      have h1 : pricedAt (c :: s) k = (c.qty, cpu) :: pricedAt s k := by
        simp [pricedAt, List.filterMap_cons, hcpu, hk]
      have h2 : contribsAt (c :: s) k = c :: contribsAt s k := by
        simp [contribsAt, List.filter_cons, hk]
      rw [h1, h2]
      simp [ih hall']
    · have h1 : pricedAt (c :: s) k = pricedAt s k := by
        cases hc : c.cost <;> simp [pricedAt, List.filterMap_cons, hc, hk]
      have h2 : contribsAt (c :: s) k = contribsAt s k := by
        simp [contribsAt, List.filter_cons, hk]
      rw [h1, h2]
      exact ih hall'

theorem pricedAt_ne_nil (s : List Contribution) (k : BomKey) (c : Contribution)
    (hc : c ∈ s) (hk : c.key = k) (cpu : ℚ) (hcpu : c.cost = some cpu) :
    pricedAt s k ≠ [] := by
  have hmem : (c.qty, cpu) ∈ pricedAt s k := by
    apply List.mem_filterMap.mpr
    exact ⟨c, hc, by simp [hcpu, hk]⟩
  exact List.ne_nil_of_mem hmem

theorem unpricedAt_ne_nil (s : List Contribution) (k : BomKey)
    (c : Contribution) (hc : c ∈ s) (hk : c.key = k) (hcost : c.cost = none) :
    unpricedAt s k ≠ [] := by
  have hmem : c.qty ∈ unpricedAt s k := by
    apply List.mem_filterMap.mpr
    exact ⟨c, hc, by simp [hcost, hk]⟩
  exact List.ne_nil_of_mem hmem

/-- Success of `compute_work_order`, unpacked: the effective lines, the
final accumulator, the report shape, the BOM fold, and key uniqueness of
both aggregation maps. -/
theorem compute_ok_parts (cfg : Settings) (wo : WorkOrder) (now : String)
    (r : Report) (h : compute_work_order cfg wo now = .ok r) :
    ∃ ls st, effectiveLines wo = .ok ls ∧
      processLines cfg 1 ls initState = .ok st ∧
      r = assemble wo now ls st ∧
      st.bom = bomFold (contribStream ls) initState.bom ∧
      (st.bom.priced.map Prod.fst).Nodup ∧
      (st.bom.unpriced.map Prod.fst).Nodup := by
  obtain ⟨ls, st, hls, hst, hr⟩ := (compute_eq_ok_iff cfg wo now r).mp h
  have hbom := processLines_ok_bom cfg 1 ls initState st hst
  have hnodup := bomFold_nodupKeys (contribStream ls) initState.bom
    (by simp [initState]) (by simp [initState])
  rw [← hbom] at hnodup
  exact ⟨ls, st, hls, hst, hr, hbom, hnodup.1, hnodup.2⟩

theorem final_findEntry_priced (s : List Contribution) (k : BomKey) :
    findEntry k (bomFold s initState.bom).priced = pSummary s k := by
  rw [bomFold_findEntry_priced]
  simp [initState, findEntry, pCombine_none_left]

theorem final_findEntry_unpriced (s : List Contribution) (k : BomKey) :
    findEntry k (bomFold s initState.bom).unpriced = uSummary s k := by
  rw [bomFold_findEntry_unpriced]
  simp [initState, findEntry, uCombine_none_left]

theorem pSummary_eq_some (s : List Contribution) (k : BomKey)
    (hne : pricedAt s k ≠ []) :
    pSummary s k = some (pSum (pricedAt s k)) := by
  unfold pSummary
  cases hl : pricedAt s k with
  | nil => exact absurd hl hne
  | cons x xs => rfl

theorem uSummary_eq_some (s : List Contribution) (k : BomKey)
    (hne : unpricedAt s k ≠ []) :
    uSummary s k = some (unpricedAt s k).sum := by
  unfold uSummary
  cases hl : unpricedAt s k with
  | nil => exact absurd hl hne
  | cons x xs => rfl

/-- In a successful report, the priced rows with a given key are exactly
one row, built from the stream's priced aggregate for that key. -/
theorem report_priced_filter (cfg : Settings) (wo : WorkOrder) (now : String)
    (r : Report) (ls : List WorkOrderLine)
    (h : compute_work_order cfg wo now = .ok r)
    (hls : effectiveLines wo = .ok ls) (k : BomKey)
    (hne : pricedAt (contribStream ls) k ≠ []) :
    r.bom_summary.priced_items.filter
        (fun it => it.name == k.1 && it.unit == k.2) =
      [toPricedItem r.summary.cost.bom_total
        (k, pSum (pricedAt (contribStream ls) k))] := by
  obtain ⟨ls', st, hls', hst, hr, hbom, hnp, hnu⟩ := compute_ok_parts cfg wo now r h
  rw [hls] at hls'
  injection hls' with hlseq
  subst hlseq
  subst hr
  have hfind : findEntry k st.bom.priced =
      some (pSum (pricedAt (contribStream ls) k)) := by
    rw [hbom, final_findEntry_priced, pSummary_eq_some _ _ hne]
  have hunsorted :
      (pricedItemsUnsorted st.bom.agg_bom_cost st.bom.priced).filter
        (fun it => it.name == k.1 && it.unit == k.2) =
      [toPricedItem st.bom.agg_bom_cost
        (k, pSum (pricedAt (contribStream ls) k))] := by
    rw [pricedItems_filter_key, filter_keys_of_nodup _ _ hnp, hfind]
    rfl
  have hsorted : (assemble wo now ls st).bom_summary.priced_items =
      sortPricedDesc (pricedItemsUnsorted st.bom.agg_bom_cost st.bom.priced) := rfl
  have hperm :
      ((assemble wo now ls st).bom_summary.priced_items.filter
        (fun it => it.name == k.1 && it.unit == k.2)).Perm
      ((pricedItemsUnsorted st.bom.agg_bom_cost st.bom.priced).filter
        (fun it => it.name == k.1 && it.unit == k.2)) := by
    rw [hsorted]
    exact (sortPricedDesc_perm _).filter _
  rw [hunsorted] at hperm
  exact List.perm_singleton.mp hperm

/-- In a successful report, the unpriced rows with a given key are
exactly one row, whose quantity is the sum of the stream's unpriced
contributions for that key. -/
theorem report_unpriced_filter (cfg : Settings) (wo : WorkOrder) (now : String)
    (r : Report) (ls : List WorkOrderLine)
    (h : compute_work_order cfg wo now = .ok r)
    (hls : effectiveLines wo = .ok ls) (k : BomKey)
    (hne : unpricedAt (contribStream ls) k ≠ []) :
    r.bom_summary.unpriced_items.filter
        (fun it => it.name == k.1 && it.unit == k.2) =
      [toUnpricedItem (k, (unpricedAt (contribStream ls) k).sum)] := by
  obtain ⟨ls', st, hls', hst, hr, hbom, hnp, hnu⟩ := compute_ok_parts cfg wo now r h
  rw [hls] at hls'
  injection hls' with hlseq
  subst hlseq
  subst hr
  have hfind : findEntry k st.bom.unpriced =
      some (unpricedAt (contribStream ls) k).sum := by
    rw [hbom, final_findEntry_unpriced, uSummary_eq_some _ _ hne]
  have hlist : (assemble wo now ls st).bom_summary.unpriced_items =
      unpricedItemsList st.bom.unpriced := rfl
  rw [hlist, unpricedItems_filter_key, filter_keys_of_nodup _ _ hnu, hfind]
  rfl

/-- In a successful report, `bom_total` is the sum of the priced
contributions of the whole stream (unpriced ones excluded). -/
theorem report_bom_total (cfg : Settings) (wo : WorkOrder) (now : String)
    (r : Report) (ls : List WorkOrderLine)
    (h : compute_work_order cfg wo now = .ok r)
    (hls : effectiveLines wo = .ok ls) :
    r.summary.cost.bom_total = pricedTotal (contribStream ls) := by
  obtain ⟨ls', st, hls', hst, hr, hbom, hnp, hnu⟩ := compute_ok_parts cfg wo now r h
  rw [hls] at hls'
  injection hls' with hlseq
  subst hlseq
  subst hr
  have : (assemble wo now ls st).summary.cost.bom_total =
      st.bom.agg_bom_cost := rfl
  rw [this, hbom, bomFold_agg]
  simp [initState]

/-- Dropping the wall-clock timestamp from a report. -/
def scrubReport (r : Report) : Report :=
  { r with header := { r.header with generated_at := "" } }

/-! ## Claim theorems -/

/-- C2: for every line whose product passes validation, the report's
per-unit metrics are exactly `2*(w+h)*l/1e6*(1+waste_factor)` for sheet
area, that times `thickness/1000` times the steel density for mass, and
the sheet area (or `0` without insulation) for insulation area
(`insulation_thickness_mm` scales nothing); each line-total metric is the
per-unit metric times the line quantity. -/
theorem claim_c2 (cfg : Settings) (wo : WorkOrder) (now : String) (r : Report)
    (h : compute_work_order cfg wo now = .ok r) :
    ∃ ls, effectiveLines wo = .ok ls ∧ r.lines.length = ls.length ∧
      ∀ (i : ℕ) (line : WorkOrderLine), ls[i]? = some line → ∃ spec,
        parseDuctSpec line.product.attributes = some spec ∧
        r.lines[i]? = some
          { line_number := i + 1
            line_id := line.id
            product_id := line.product.id
            product_name := line.product.name
            quantity := line.quantity
            per_unit :=
              { sheet_area_m2 :=
                  2 * (spec.width_mm + spec.height_mm) * spec.length_mm
                    / 1000000 * (1 + cfg.waste_factor)
                sheet_mass_kg :=
                  2 * (spec.width_mm + spec.height_mm) * spec.length_mm
                    / 1000000 * (1 + cfg.waste_factor)
                    * (spec.thickness_mm / 1000) * cfg.steel_density_kg_m3
                insulation_area_m2 :=
                  if spec.insulation_enabled then
                    2 * (spec.width_mm + spec.height_mm) * spec.length_mm
                      / 1000000 * (1 + cfg.waste_factor)
                  else 0 }
            totals :=
              { sheet_area_m2 :=
                  2 * (spec.width_mm + spec.height_mm) * spec.length_mm
                    / 1000000 * (1 + cfg.waste_factor) * (line.quantity : ℚ)
                sheet_mass_kg :=
                  2 * (spec.width_mm + spec.height_mm) * spec.length_mm
                    / 1000000 * (1 + cfg.waste_factor)
                    * (spec.thickness_mm / 1000) * cfg.steel_density_kg_m3
                    * (line.quantity : ℚ)
                insulation_area_m2 :=
                  (if spec.insulation_enabled then
                    2 * (spec.width_mm + spec.height_mm) * spec.length_mm
                      / 1000000 * (1 + cfg.waste_factor)
                  else 0) * (line.quantity : ℚ) } } := by
  obtain ⟨ls, st, hls, hst, hr, hbom, hnp, hnu⟩ := compute_ok_parts cfg wo now r h
  subst hr
  obtain ⟨rs, hplr, hlen, hidx⟩ :=
    processLines_ok_results cfg 1 ls initState st hst
  have hlines : (assemble wo now ls st).lines = st.per_line_results := rfl
  have hplr' : st.per_line_results = rs := by
    rw [hplr]
    simp [initState]
  refine ⟨ls, hls, by rw [hlines, hplr', hlen], ?_⟩
  intro i line hi
  obtain ⟨spec, hspec, hr⟩ := hidx i line hi
  refine ⟨spec, hspec, ?_⟩
  rw [hlines, hplr', hr]
  have : mkLineResult cfg (1 + i) line spec =
      mkLineResult cfg (i + 1) line spec := by
    rw [Nat.add_comm]
  rw [this]
  rfl

/-- C5: each priced item's `cost_share_pct` is `total_cost / bom_total *
100` when `bom_total > 0`, and the shares then sum to exactly 100; when
`bom_total = 0` every share is 0 (the guarded division is skipped). -/
theorem claim_c5 (cfg : Settings) (wo : WorkOrder) (now : String) (r : Report)
    (h : compute_work_order cfg wo now = .ok r) :
    (0 < r.summary.cost.bom_total →
      (∀ it ∈ r.bom_summary.priced_items,
        it.cost_share_pct = it.total_cost / r.summary.cost.bom_total * 100) ∧
      (r.bom_summary.priced_items.map PricedItem.cost_share_pct).sum = 100) ∧
    (r.summary.cost.bom_total = 0 →
      ∀ it ∈ r.bom_summary.priced_items, it.cost_share_pct = 0) := by
  obtain ⟨ls, st, hls, hst, hr, hbom, hnp, hnu⟩ := compute_ok_parts cfg wo now r h
  subst hr
  have hBT : (assemble wo now ls st).summary.cost.bom_total =
      st.bom.agg_bom_cost := rfl
  have hitems : (assemble wo now ls st).bom_summary.priced_items =
      sortPricedDesc (pricedItemsUnsorted st.bom.agg_bom_cost st.bom.priced) :=
    rfl
  have hmem : ∀ it ∈ (assemble wo now ls st).bom_summary.priced_items,
      it.cost_share_pct = costShare st.bom.agg_bom_cost it.total_cost := by
    intro it hit
    rw [hitems] at hit
    have hit' : it ∈ pricedItemsUnsorted st.bom.agg_bom_cost st.bom.priced :=
      (sortPricedDesc_perm _).mem_iff.mp hit
    obtain ⟨ke, hke, hitke⟩ := List.mem_map.mp hit'
    rw [← hitke]
    rfl
  have htc : totalCostOf st.bom.priced = st.bom.agg_bom_cost := by
    rw [hbom, bomFold_totalCost, bomFold_agg]
    simp [initState, totalCostOf]
  constructor
  · intro hpos
    rw [hBT] at hpos
    constructor
    · intro it hit
      rw [hBT, hmem it hit]
      unfold costShare
      rw [if_pos hpos]
    · have hperm : ((assemble wo now ls st).bom_summary.priced_items.map
          PricedItem.cost_share_pct).sum =
          ((pricedItemsUnsorted st.bom.agg_bom_cost st.bom.priced).map
            PricedItem.cost_share_pct).sum := by
        rw [hitems]
        exact ((sortPricedDesc_perm _).map _).sum_eq
      rw [hperm]
      unfold pricedItemsUnsorted
      rw [List.map_map]
      have hfun : ∀ ke : BomKey × PricedEntry,
          (PricedItem.cost_share_pct ∘ toPricedItem st.bom.agg_bom_cost) ke =
            ke.2.total_cost * (st.bom.agg_bom_cost⁻¹ * 100) := by
        intro ke
        show costShare st.bom.agg_bom_cost ke.2.total_cost = _
        unfold costShare
        rw [if_pos hpos, div_eq_mul_inv, mul_assoc]
      have hmapeq : st.bom.priced.map
          (PricedItem.cost_share_pct ∘ toPricedItem st.bom.agg_bom_cost) =
          st.bom.priced.map
            (fun ke => ke.2.total_cost * (st.bom.agg_bom_cost⁻¹ * 100)) :=
        List.map_congr_left (fun ke _ => hfun ke)
      rw [hmapeq, List.sum_map_mul_right]
      have : (st.bom.priced.map fun ke => ke.2.total_cost).sum =
          totalCostOf st.bom.priced := rfl
      rw [this, htc, ← mul_assoc, mul_inv_cancel₀ (ne_of_gt hpos), one_mul]
  · intro hzero
    intro it hit
    rw [hmem it hit]
    unfold costShare
    rw [hBT] at hzero
    rw [hzero, if_neg (lt_irrefl (0 : ℚ))]

/-- C6: `priced_items` is the stable descending sort by `total_cost` of
the insertion-ordered merged entries: it is pairwise descending, and
within every `total_cost` class the insertion order is preserved. -/
theorem claim_c6 (cfg : Settings) (wo : WorkOrder) (now : String) (r : Report)
    (h : compute_work_order cfg wo now = .ok r) :
    r.bom_summary.priced_items.Pairwise
      (fun a b => b.total_cost ≤ a.total_cost) ∧
    ∃ ls st, effectiveLines wo = .ok ls ∧
      processLines cfg 1 ls initState = .ok st ∧
      r.bom_summary.priced_items =
        sortPricedDesc
          (pricedItemsUnsorted st.bom.agg_bom_cost st.bom.priced) ∧
      r.bom_summary.priced_items.Perm
        (pricedItemsUnsorted st.bom.agg_bom_cost st.bom.priced) ∧
      ∀ c : ℚ,
        r.bom_summary.priced_items.filter (fun it => it.total_cost == c) =
          (pricedItemsUnsorted st.bom.agg_bom_cost st.bom.priced).filter
            (fun it => it.total_cost == c) := by
  obtain ⟨ls, st, hls, hst, hr, hbom, hnp, hnu⟩ := compute_ok_parts cfg wo now r h
  subst hr
  have hitems : (assemble wo now ls st).bom_summary.priced_items =
      sortPricedDesc (pricedItemsUnsorted st.bom.agg_bom_cost st.bom.priced) :=
    rfl
  rw [hitems]
  exact ⟨sortPricedDesc_pairwise _,
    ls, st, hls, hst, rfl, sortPricedDesc_perm _,
    fun c => sortPricedDesc_filter _ c⟩

/-- C7: `cost_completeness_pct` is `priced/(priced+unpriced)*100` when
there is at least one BOM key, `100` when there are none, `0` when all
keys are unpriced; `cost_complete` holds iff no key is unpriced. -/
theorem claim_c7 (cfg : Settings) (wo : WorkOrder) (now : String) (r : Report)
    (h : compute_work_order cfg wo now = .ok r) :
    r.bom_summary.metrics.total_item_count =
      r.bom_summary.metrics.priced_item_count +
        r.bom_summary.metrics.unpriced_item_count ∧
    (0 < r.bom_summary.metrics.total_item_count →
      r.bom_summary.metrics.cost_completeness_pct =
        (r.bom_summary.metrics.priced_item_count : ℚ) /
          ((r.bom_summary.metrics.priced_item_count : ℚ) +
            (r.bom_summary.metrics.unpriced_item_count : ℚ)) * 100) ∧
    (r.bom_summary.metrics.total_item_count = 0 →
      r.bom_summary.metrics.cost_completeness_pct = 100) ∧
    (r.bom_summary.metrics.priced_item_count = 0 →
      0 < r.bom_summary.metrics.unpriced_item_count →
      r.bom_summary.metrics.cost_completeness_pct = 0) ∧
    (r.summary.cost.cost_complete = true ↔
      r.bom_summary.metrics.unpriced_item_count = 0) := by
  obtain ⟨ls, st, hls, hst, hr, hbom, hnp, hnu⟩ := compute_ok_parts cfg wo now r h
  subst hr
  have hp : (assemble wo now ls st).bom_summary.metrics.priced_item_count =
      (sortPricedDesc
        (pricedItemsUnsorted st.bom.agg_bom_cost st.bom.priced)).length := rfl
  have hu : (assemble wo now ls st).bom_summary.metrics.unpriced_item_count =
      (unpricedItemsList st.bom.unpriced).length := rfl
  have ht : (assemble wo now ls st).bom_summary.metrics.total_item_count =
      (sortPricedDesc
        (pricedItemsUnsorted st.bom.agg_bom_cost st.bom.priced)).length +
      (unpricedItemsList st.bom.unpriced).length := rfl
  set P := (sortPricedDesc
    (pricedItemsUnsorted st.bom.agg_bom_cost st.bom.priced)).length with hP
  set U := (unpricedItemsList st.bom.unpriced).length with hU
  have hpct : (assemble wo now ls st).bom_summary.metrics.cost_completeness_pct
      = if 0 < P + U then (P : ℚ) / ((P + U : ℕ) : ℚ) * 100 else 100 := rfl
  have hcc : (assemble wo now ls st).summary.cost.cost_complete = (U == 0) :=
    rfl
  refine ⟨ht, ?_, ?_, ?_, ?_⟩
  · intro hpos
    rw [ht] at hpos
    rw [hpct, if_pos hpos, hp, hu]
    push_cast
    ring
  · intro hzero
    rw [ht] at hzero
    rw [hpct, if_neg (by omega)]
  · intro hpz huz
    rw [hp] at hpz
    rw [hu] at huz
    rw [hpct, if_pos (by omega), hpz]
    simp
  · rw [hcc, hu]
    simp

/-- The ways an attribute record can violate the `RectangularDuctSpec`
bounds: a non-positive dimension, thickness above 20 mm, or insulation
enabled with `insulation_thickness_mm` missing or not positive
(`Option.getD 0` makes a missing value non-positive). -/
def ductViolated (a : DuctAttrs) : Prop :=
  a.width_mm ≤ 0 ∨ a.height_mm ≤ 0 ∨ a.length_mm ≤ 0 ∨ a.thickness_mm ≤ 0 ∨
    20 < a.thickness_mm ∨
    (a.insulation_enabled = true ∧ a.insulation_thickness_mm.getD 0 ≤ 0)

theorem parseDuctSpec_eq_none_iff (a : DuctAttrs) :
    parseDuctSpec a = none ↔ ductViolated a := by
  unfold parseDuctSpec
  split_ifs with hc
  · refine iff_of_false (by simp) ?_
    obtain ⟨h1, h2, h3, ⟨h4, h5⟩, h6⟩ := hc
    rintro (hv | hv | hv | hv | hv | ⟨hv1, hv2⟩)
    · exact absurd h1 (not_lt.mpr hv)
    · exact absurd h2 (not_lt.mpr hv)
    · exact absurd h3 (not_lt.mpr hv)
    · exact absurd h4 (not_lt.mpr hv)
    · exact absurd hv (not_lt.mpr h5)
    · exact absurd (h6 hv1) (not_lt.mpr hv2)
  · refine iff_of_true rfl ?_
    unfold ductViolated
    by_contra hv
    push_neg at hv
    obtain ⟨hv1, hv2, hv3, hv4, hv5, hv6⟩ := hv
    exact hc ⟨hv1, hv2, hv3, ⟨hv4, hv5⟩, hv6⟩

theorem not_goodLine_iff (line : WorkOrderLine) :
    ¬ goodLine line ↔
      line.product.product_type ≠ "RECTANGULAR_DUCT" ∨
        ductViolated line.product.attributes := by
  unfold goodLine
  rw [not_and_or, ← parseDuctSpec_eq_none_iff]
  apply or_congr Iff.rfl
  cases hp : parseDuctSpec line.product.attributes <;> simp [hp]

theorem compute_isOk_iff (cfg : Settings) (wo : WorkOrder) (now : String) :
    (∃ r, compute_work_order cfg wo now = .ok r) ↔
      ∃ ls, effectiveLines wo = .ok ls ∧ ∀ line ∈ ls, goodLine line := by
  constructor
  · rintro ⟨r, h⟩
    obtain ⟨ls, st, hls, hst, -⟩ := (compute_eq_ok_iff cfg wo now r).mp h
    exact ⟨ls, hls, (processLines_isOk_iff cfg 1 ls initState).mp ⟨st, hst⟩⟩
  · rintro ⟨ls, hls, hgood⟩
    obtain ⟨st, hst⟩ := (processLines_isOk_iff cfg 1 ls initState).mpr hgood
    exact ⟨assemble wo now ls st,
      (compute_eq_ok_iff cfg wo now _).mpr ⟨ls, st, hls, hst, rfl⟩⟩

theorem compute_error_exists_iff (cfg : Settings) (wo : WorkOrder)
    (now : String) :
    (∃ e, compute_work_order cfg wo now = .error e) ↔
      ¬ ∃ r, compute_work_order cfg wo now = .ok r := by
  cases h : compute_work_order cfg wo now <;> simp

theorem effectiveLines_ok_not_nofb (wo : WorkOrder) (ls : List WorkOrderLine)
    (h : effectiveLines wo = .ok ls) :
    ¬ (wo.lines = [] ∧ legacyFallbackOk wo = false) := by
  rintro ⟨h1, h2⟩
  have herr := (effectiveLines_eq_error wo noLinesError).mpr ⟨h1, h2, rfl⟩
  rw [h] at herr
  exact Except.noConfusion herr

/-- C1: when several BOM items across the lines share a key `(name, unit
or "")` and all of them are priced, `priced_items` has exactly one entry
for that key; its `total_quantity` sums the contributed
`quantity_per_unit * line_quantity` amounts, its `total_cost` sums each
item's own `cost_per_unit` times its contributed quantity, and its
`cost_per_unit` is the one of the last contributing item in
line-then-BOM-entry order (last write wins). -/
theorem claim_c1 (cfg : Settings) (wo : WorkOrder) (now : String) (r : Report)
    (ls : List WorkOrderLine) (k : BomKey)
    (h : compute_work_order cfg wo now = .ok r)
    (hls : effectiveLines wo = .ok ls)
    (h2 : 2 ≤ (contribsAt (contribStream ls) k).length)
    (hall : ∀ c ∈ contribStream ls, c.key = k → c.cost.isSome = true) :
    ∃ it, r.bom_summary.priced_items.filter
        (fun x => x.name == k.1 && x.unit == k.2) = [it] ∧
      it.total_quantity = ((pricedAt (contribStream ls) k).map Prod.fst).sum ∧
      it.total_cost =
        ((pricedAt (contribStream ls) k).map fun qc => qc.2 * qc.1).sum ∧
      some it.cost_per_unit =
        ((pricedAt (contribStream ls) k).map Prod.snd).getLast? := by
  have hne : pricedAt (contribStream ls) k ≠ [] := by
    intro hnil
    have hlen := pricedAt_length_all_priced (contribStream ls) k hall
    rw [hnil] at hlen
    simp only [List.length_nil] at hlen
    omega
  refine ⟨toPricedItem r.summary.cost.bom_total
    (k, pSum (pricedAt (contribStream ls) k)),
    report_priced_filter cfg wo now r ls h hls k hne, rfl, rfl, ?_⟩
  have hmapne : (pricedAt (contribStream ls) k).map Prod.snd ≠ [] := by
    simpa using hne
  obtain ⟨y, hy⟩ := Option.isSome_iff_exists.mp
    (List.getLast?_isSome.mpr hmapne)
  show some (((pricedAt (contribStream ls) k).map Prod.snd).getLast?.getD 0) =
    ((pricedAt (contribStream ls) k).map Prod.snd).getLast?
  rw [hy]
  rfl

/-- C4: a key that is priced on some contributing items and unpriced on
others yields one entry in `priced_items` aggregating only the priced
contributions and one entry in `unpriced_items` aggregating only the
unpriced quantities; the buckets are never merged, and `bom_total` (hence
the priced entry's `total_cost`) counts only priced contributions. -/
theorem claim_c4 (cfg : Settings) (wo : WorkOrder) (now : String) (r : Report)
    (ls : List WorkOrderLine) (k : BomKey)
    (h : compute_work_order cfg wo now = .ok r)
    (hls : effectiveLines wo = .ok ls)
    (hp : ∃ c ∈ contribStream ls, c.key = k ∧ c.cost.isSome = true)
    (hu : ∃ c ∈ contribStream ls, c.key = k ∧ c.cost = none) :
    (∃ it, r.bom_summary.priced_items.filter
        (fun x => x.name == k.1 && x.unit == k.2) = [it] ∧
      it.total_quantity = ((pricedAt (contribStream ls) k).map Prod.fst).sum ∧
      it.total_cost =
        ((pricedAt (contribStream ls) k).map fun qc => qc.2 * qc.1).sum) ∧
    (∃ u, r.bom_summary.unpriced_items.filter
        (fun x => x.name == k.1 && x.unit == k.2) = [u] ∧
      u.total_quantity = (unpricedAt (contribStream ls) k).sum) ∧
    r.summary.cost.bom_total = pricedTotal (contribStream ls) := by
  obtain ⟨cp, hcp, hcpk, hcps⟩ := hp
  obtain ⟨cu, hcu, hcuk, hcun⟩ := hu
  obtain ⟨cpu, hcpu⟩ := Option.isSome_iff_exists.mp hcps
  have hpne : pricedAt (contribStream ls) k ≠ [] :=
    pricedAt_ne_nil (contribStream ls) k cp hcp hcpk cpu hcpu
  have hune : unpricedAt (contribStream ls) k ≠ [] :=
    unpricedAt_ne_nil (contribStream ls) k cu hcu hcuk hcun
  refine ⟨⟨toPricedItem r.summary.cost.bom_total
      (k, pSum (pricedAt (contribStream ls) k)),
      report_priced_filter cfg wo now r ls h hls k hpne, rfl, rfl⟩,
    ⟨toUnpricedItem (k, (unpricedAt (contribStream ls) k).sum),
      report_unpriced_filter cfg wo now r ls h hls k hune, rfl⟩,
    report_bom_total cfg wo now r ls h hls⟩

/-- C3 (amended): `compute_work_order` fails, producing no report,
exactly when the line list is empty and the legacy fallback guard
(`product_id`, `quantity` and `product` all present and truthy) is false,
or some effective line has an unsupported product type or attributes
violating the `DuctSpec` bounds.  BOM item contents never cause failure
and bounds are never clamped; in the `Except` embedding an error excludes
any partial report by construction. -/
theorem claim_c3_amended (cfg : Settings) (wo : WorkOrder) (now : String) :
    (∃ e, compute_work_order cfg wo now = .error e) ↔
      (wo.lines = [] ∧ legacyFallbackOk wo = false) ∨
      (∃ ls, effectiveLines wo = .ok ls ∧ ∃ line ∈ ls,
        line.product.product_type ≠ "RECTANGULAR_DUCT" ∨
        ductViolated line.product.attributes) := by
  rw [compute_error_exists_iff, compute_isOk_iff]
  cases heff : effectiveLines wo with
  | error e =>
    have hchar := (effectiveLines_eq_error wo e).mp heff
    refine iff_of_true ?_ (Or.inl ⟨hchar.1, hchar.2.1⟩)
    rintro ⟨ls, hls, -⟩
    exact Except.noConfusion hls
  | ok ls =>
    have hnofb := effectiveLines_ok_not_nofb wo ls heff
    constructor
    · intro hno
      have hex : ∃ line ∈ ls, ¬ goodLine line := by
        by_contra hb
        push_neg at hb
        exact hno ⟨ls, rfl, fun line hl => hb line hl⟩
      obtain ⟨line, hline, hbad⟩ := hex
      exact Or.inr ⟨ls, rfl, line, hline, (not_goodLine_iff line).mp hbad⟩
    · rintro (hfb | ⟨ls', hls', line, hline, hbad⟩) ⟨ls'', hls'', hgood⟩
      · exact hnofb hfb
      · injection hls' with hl
        subst hl
        injection hls'' with hl2
        subst hl2
        exact (not_goodLine_iff line).mpr hbad (hgood line hline)

/-- C8 (amended): every error raised by the engine carries a
human-readable message and the machine-checkable code
`"validation_error"` (HTTP status 422); the code identifies the
validation class but is the same for all three failure modes, which are
distinguished only by their pairwise distinct messages. -/
theorem claim_c8_amended (cfg : Settings) (wo : WorkOrder) (now : String)
    (e : AppError) (h : compute_work_order cfg wo now = .error e) :
    e.code = "validation_error" ∧ e.status_code = 422 ∧
    (e = noLinesError ∨ e = unsupportedTypeError ∨ e = invalidGeometryError) ∧
    noLinesError.message ≠ unsupportedTypeError.message ∧
    noLinesError.message ≠ invalidGeometryError.message ∧
    unsupportedTypeError.message ≠ invalidGeometryError.message := by
  have hkind : e = noLinesError ∨ e = unsupportedTypeError ∨
      e = invalidGeometryError := by
    rcases (compute_eq_error_iff cfg wo now e).mp h with herr | ⟨ls, hls, herr⟩
    · exact Or.inl ((effectiveLines_eq_error wo e).mp herr).2.2
    · rcases processLines_error_kind cfg 1 ls initState e herr with h1 | h1
      · exact Or.inr (Or.inl h1)
      · exact Or.inr (Or.inr h1)
  refine ⟨?_, ?_, hkind, by decide, by decide, by decide⟩
  · rcases hkind with he | he | he <;> rw [he] <;> rfl
  · rcases hkind with he | he | he <;> rw [he] <;> rfl

/-- C10 (amended): for an empty line list, truthy legacy fields make the
engine behave exactly as if the order had the single synthesized line
(`id = None`, the legacy quantity and product) — succeeding if and only
if that line validates — and a successful report then has one line with
`line_number 1`, `line_id None` and the legacy quantity; a falsy legacy
`quantity` (`None` or `0`) disables the fallback and raises the no-lines
error. -/
theorem claim_c10_amended (cfg : Settings) (wo : WorkOrder) (now : String)
    (hl : wo.lines = []) :
    ((wo.quantity = none ∨ wo.quantity = some 0) →
      compute_work_order cfg wo now = .error noLinesError) ∧
    (∀ (p : Product) (pid q : Int), wo.product = some p →
      wo.product_id = some pid → pid ≠ 0 → wo.quantity = some q → q ≠ 0 →
      compute_work_order cfg wo now =
        compute_work_order cfg
          { wo with lines := [{ id := none, quantity := q, product := p }] }
          now ∧
      (∀ r, compute_work_order cfg wo now = .ok r →
        r.header.line_count = 1 ∧ ∃ lr, r.lines = [lr] ∧
          lr.line_number = 1 ∧ lr.line_id = none ∧ lr.quantity = q)) := by
  constructor
  · intro hq
    have hqf : truthyInt wo.quantity = false := by
      rcases hq with hq | hq <;> rw [hq] <;> simp [truthyInt]
    have hfb : legacyFallbackOk wo = false := by
      unfold legacyFallbackOk
      rw [hqf]
      simp
    exact (compute_eq_error_iff cfg wo now noLinesError).mpr
      (Or.inl ((effectiveLines_eq_error wo noLinesError).mpr ⟨hl, hfb, rfl⟩))
  · intro p pid q hp hpid hpid0 hq hq0
    have htp : truthyInt wo.product_id = true := by
      rw [hpid]
      simp [truthyInt, hpid0]
    have htq : truthyInt wo.quantity = true := by
      rw [hq]
      simp [truthyInt, hq0]
    have heff : effectiveLines wo =
        .ok [{ id := none, quantity := q, product := p }] := by
      unfold effectiveLines
      rw [hl, hp, htp, htq]
      simp [hq]
    have heff' : effectiveLines
        { wo with lines := [{ id := none, quantity := q, product := p }] } =
        .ok [{ id := none, quantity := q, product := p }] := rfl
    constructor
    · unfold compute_work_order
      rw [heff, heff']
      rfl
    · intro r hr
      obtain ⟨ls', st, hls', hst, hrr⟩ := (compute_eq_ok_iff cfg wo now r).mp hr
      rw [heff] at hls'
      injection hls' with hlsq
      subst hlsq
      subst hrr
      obtain ⟨rs, hplr, hlen, hidx⟩ :=
        processLines_ok_results cfg 1 _ initState st hst
      have hplr' : st.per_line_results = rs := by
        rw [hplr]
        simp [initState]
      cases rs with
      | nil => simp at hlen
      | cons x xs =>
        cases xs with
        | cons y ys => simp at hlen
        | nil =>
          obtain ⟨spec, hspec, hx⟩ :=
            hidx 0 { id := none, quantity := q, product := p } (by simp)
          rw [List.getElem?_cons_zero] at hx
          injection hx with hx'
          have hlines : (assemble wo now
              [{ id := none, quantity := q, product := p }] st).lines =
              st.per_line_results := rfl
          refine ⟨rfl, x, ?_, ?_, ?_, ?_⟩
          · rw [hlines, hplr']
          · rw [hx']
            rfl
          · rw [hx']
            rfl
          · rw [hx']
            rfl

/-- C9: `compute_work_order` is a pure function of the work order, the
configuration and the clock; two runs with different clock readings agree
everywhere except `header.generated_at` (errors are identical).  In this
functional embedding the inputs are values, so absence of mutation holds
by construction. -/
theorem claim_c9 (cfg : Settings) (wo : WorkOrder) (t₁ t₂ : String) :
    (compute_work_order cfg wo t₁).map scrubReport =
      (compute_work_order cfg wo t₂).map scrubReport := by
  unfold compute_work_order
  cases heff : effectiveLines wo with
  | error e => rfl
  | ok ls =>
    rw [ok_bind, ok_bind]
    cases hst : processLines cfg 1 ls initState with
    | error e => rfl
    | ok st => rfl

/-! ## Concrete instances

A small two-line work order exercising the merge (`("a", "")` priced on
both lines, `("b", "")` priced on one line and unpriced on the other,
`("c", "")` unpriced only), and minimal failing work orders for each
error mode. -/

def cfgW : Settings := { steel_density_kg_m3 := 1000, waste_factor := 0 }

def attrsW : DuctAttrs :=
  { width_mm := 1, height_mm := 1, length_mm := 1, thickness_mm := 1
    insulation_enabled := false, insulation_thickness_mm := none }

def prodW1 : Product :=
  { id := some 1, name := "p1", product_type := "RECTANGULAR_DUCT"
    attributes := attrsW
    bom_items :=
      [ { name := "a", unit := none, quantity_per_unit := 1
          cost_per_unit := some 2 }
      , { name := "b", unit := none, quantity_per_unit := 1
          cost_per_unit := some 5 }
      , { name := "c", unit := none, quantity_per_unit := 2
          cost_per_unit := none } ] }

def prodW2 : Product :=
  { id := some 2, name := "p2", product_type := "RECTANGULAR_DUCT"
    attributes := attrsW
    bom_items :=
      [ { name := "a", unit := none, quantity_per_unit := 1
          cost_per_unit := some 3 }
      , { name := "b", unit := none, quantity_per_unit := 1
          cost_per_unit := none } ] }

def woW : WorkOrder :=
  { id := some 7, project_name := "P", product_id := none, quantity := none
    product := none
    lines :=
      [ { id := some 11, quantity := 1, product := prodW1 }
      , { id := some 12, quantity := 2, product := prodW2 } ] }

def lsW : List WorkOrderLine := woW.lines

def prodValidW : Product :=
  { id := some 4, name := "pv", product_type := "RECTANGULAR_DUCT"
    attributes := attrsW, bom_items := [] }

def prodBadTypeW : Product :=
  { id := some 3, name := "px", product_type := "OTHER"
    attributes := attrsW, bom_items := [] }

def attrsBadW : DuctAttrs :=
  { width_mm := 0, height_mm := 1, length_mm := 1, thickness_mm := 1
    insulation_enabled := false, insulation_thickness_mm := none }

def prodBadGeomW : Product :=
  { id := some 5, name := "pg", product_type := "RECTANGULAR_DUCT"
    attributes := attrsBadW, bom_items := [] }

def woNoLinesW : WorkOrder :=
  { id := none, project_name := "P", product_id := none, quantity := none
    product := none, lines := [] }

def woBadTypeW : WorkOrder :=
  { id := none, project_name := "P", product_id := none, quantity := none
    product := none
    lines := [ { id := some 13, quantity := 1, product := prodBadTypeW } ] }

def woBadGeomW : WorkOrder :=
  { id := none, project_name := "P", product_id := none, quantity := none
    product := none
    lines := [ { id := some 14, quantity := 1, product := prodBadGeomW } ] }

/-- A work order whose legacy fields are all present (`product_id = 0`,
truthy quantity, a fully valid product) but whose `product_id` is falsy. -/
def woC3x : WorkOrder :=
  { id := none, project_name := "P", product_id := some 0, quantity := some 1
    product := some prodValidW, lines := [] }

/-- A work order with truthy legacy fields whose product has an
unsupported type. -/
def woC10x : WorkOrder :=
  { id := none, project_name := "P", product_id := some 1, quantity := some 1
    product := some prodBadTypeW, lines := [] }

/-- A legacy-style work order with truthy fields and a valid product. -/
def woLegacyW : WorkOrder :=
  { id := some 9, project_name := "P", product_id := some 4, quantity := some 5
    product := some prodValidW, lines := [] }

/-- The report the engine computes for `woW` at clock reading `"t"`. -/
def rW : Report :=
  { header :=
      { project_name := "P", work_order_id := some 7, generated_at := "t"
        line_count := 2, total_quantity := 3 }
    summary :=
      { material :=
          { sheet_area_m2 := 3/250000, sheet_mass_kg := 3/250000
            insulation_area_m2 := 0 }
        cost :=
          { bom_total := 13, items_with_cost := 2, items_missing_cost := 2
            cost_complete := false } }
    lines :=
      [ { line_number := 1, line_id := some 11, product_id := some 1
          product_name := "p1", quantity := 1
          per_unit :=
            { sheet_area_m2 := 1/250000, sheet_mass_kg := 1/250000
              insulation_area_m2 := 0 }
          totals :=
            { sheet_area_m2 := 1/250000, sheet_mass_kg := 1/250000
              insulation_area_m2 := 0 } }
      , { line_number := 2, line_id := some 12, product_id := some 2
          product_name := "p2", quantity := 2
          per_unit :=
            { sheet_area_m2 := 1/250000, sheet_mass_kg := 1/250000
              insulation_area_m2 := 0 }
          totals :=
            { sheet_area_m2 := 1/125000, sheet_mass_kg := 1/125000
              insulation_area_m2 := 0 } } ]
    bom_summary :=
      { metrics :=
          { total_item_count := 4, priced_item_count := 2
            unpriced_item_count := 2, total_cost := 13
            cost_completeness_pct := 50 }
        priced_items :=
          [ { name := "a", unit := "", total_quantity := 3, cost_per_unit := 3
              total_cost := 8, cost_share_pct := 800/13 }
          , { name := "b", unit := "", total_quantity := 1, cost_per_unit := 5
              total_cost := 5, cost_share_pct := 500/13 } ]
        unpriced_items :=
          [ { name := "c", unit := "", total_quantity := 2 }
          , { name := "b", unit := "", total_quantity := 2 } ] }
    notes := "Hesaplama dikdörtgen kanal için yapılmıştır." }

theorem compute_woW_eq : compute_work_order cfgW woW "t" = .ok rW := by
  with_unfolding_all rfl

/-! ## Witnesses and counterexamples -/

theorem claim_c1_witness :
    compute_work_order cfgW woW "t" = .ok rW ∧
    effectiveLines woW = .ok lsW ∧
    2 ≤ (contribsAt (contribStream lsW) ("a", "")).length ∧
    (∀ c ∈ contribStream lsW, c.key = ("a", "") → c.cost.isSome = true) ∧
    (∃ it, rW.bom_summary.priced_items.filter
        (fun x => x.name == ("a", "").1 && x.unit == ("a", "").2) = [it] ∧
      it.total_quantity =
        ((pricedAt (contribStream lsW) ("a", "")).map Prod.fst).sum ∧
      it.total_cost =
        ((pricedAt (contribStream lsW) ("a", "")).map fun qc => qc.2 * qc.1).sum ∧
      some it.cost_per_unit =
        ((pricedAt (contribStream lsW) ("a", "")).map Prod.snd).getLast?) :=
  ⟨compute_woW_eq, rfl, by decide, by decide,
    claim_c1 cfgW woW "t" rW lsW ("a", "") compute_woW_eq rfl
      (by decide) (by decide)⟩

theorem claim_c2_witness :
    compute_work_order cfgW woW "t" = .ok rW ∧
    (∃ ls, effectiveLines woW = .ok ls ∧ rW.lines.length = ls.length ∧
      ∀ (i : ℕ) (line : WorkOrderLine), ls[i]? = some line → ∃ spec,
        parseDuctSpec line.product.attributes = some spec ∧
        rW.lines[i]? = some
          { line_number := i + 1
            line_id := line.id
            product_id := line.product.id
            product_name := line.product.name
            quantity := line.quantity
            per_unit :=
              { sheet_area_m2 :=
                  2 * (spec.width_mm + spec.height_mm) * spec.length_mm
                    / 1000000 * (1 + cfgW.waste_factor)
                sheet_mass_kg :=
                  2 * (spec.width_mm + spec.height_mm) * spec.length_mm
                    / 1000000 * (1 + cfgW.waste_factor)
                    * (spec.thickness_mm / 1000) * cfgW.steel_density_kg_m3
                insulation_area_m2 :=
                  if spec.insulation_enabled then
                    2 * (spec.width_mm + spec.height_mm) * spec.length_mm
                      / 1000000 * (1 + cfgW.waste_factor)
                  else 0 }
            totals :=
              { sheet_area_m2 :=
                  2 * (spec.width_mm + spec.height_mm) * spec.length_mm
                    / 1000000 * (1 + cfgW.waste_factor) * (line.quantity : ℚ)
                sheet_mass_kg :=
                  2 * (spec.width_mm + spec.height_mm) * spec.length_mm
                    / 1000000 * (1 + cfgW.waste_factor)
                    * (spec.thickness_mm / 1000) * cfgW.steel_density_kg_m3
                    * (line.quantity : ℚ)
                insulation_area_m2 :=
                  (if spec.insulation_enabled then
                    2 * (spec.width_mm + spec.height_mm) * spec.length_mm
                      / 1000000 * (1 + cfgW.waste_factor)
                  else 0) * (line.quantity : ℚ) } }) :=
  ⟨compute_woW_eq, claim_c2 cfgW woW "t" rW compute_woW_eq⟩

theorem claim_c4_witness :
    compute_work_order cfgW woW "t" = .ok rW ∧
    effectiveLines woW = .ok lsW ∧
    (∃ c ∈ contribStream lsW, c.key = ("b", "") ∧ c.cost.isSome = true) ∧
    (∃ c ∈ contribStream lsW, c.key = ("b", "") ∧ c.cost = none) ∧
    ((∃ it, rW.bom_summary.priced_items.filter
        (fun x => x.name == ("b", "").1 && x.unit == ("b", "").2) = [it] ∧
      it.total_quantity =
        ((pricedAt (contribStream lsW) ("b", "")).map Prod.fst).sum ∧
      it.total_cost =
        ((pricedAt (contribStream lsW) ("b", "")).map
          fun qc => qc.2 * qc.1).sum) ∧
    (∃ u, rW.bom_summary.unpriced_items.filter
        (fun x => x.name == ("b", "").1 && x.unit == ("b", "").2) = [u] ∧
      u.total_quantity = (unpricedAt (contribStream lsW) ("b", "")).sum) ∧
    rW.summary.cost.bom_total = pricedTotal (contribStream lsW)) :=
  ⟨compute_woW_eq, rfl, by decide, by decide,
    claim_c4 cfgW woW "t" rW lsW ("b", "") compute_woW_eq rfl
      (by decide) (by decide)⟩

theorem claim_c5_witness :
    compute_work_order cfgW woW "t" = .ok rW ∧
    ((0 < rW.summary.cost.bom_total →
      (∀ it ∈ rW.bom_summary.priced_items,
        it.cost_share_pct = it.total_cost / rW.summary.cost.bom_total * 100) ∧
      (rW.bom_summary.priced_items.map PricedItem.cost_share_pct).sum = 100) ∧
    (rW.summary.cost.bom_total = 0 →
      ∀ it ∈ rW.bom_summary.priced_items, it.cost_share_pct = 0)) :=
  ⟨compute_woW_eq, claim_c5 cfgW woW "t" rW compute_woW_eq⟩

theorem claim_c6_witness :
    compute_work_order cfgW woW "t" = .ok rW ∧
    (rW.bom_summary.priced_items.Pairwise
      (fun a b => b.total_cost ≤ a.total_cost) ∧
    ∃ ls st, effectiveLines woW = .ok ls ∧
      processLines cfgW 1 ls initState = .ok st ∧
      rW.bom_summary.priced_items =
        sortPricedDesc
          (pricedItemsUnsorted st.bom.agg_bom_cost st.bom.priced) ∧
      rW.bom_summary.priced_items.Perm
        (pricedItemsUnsorted st.bom.agg_bom_cost st.bom.priced) ∧
      ∀ c : ℚ,
        rW.bom_summary.priced_items.filter (fun it => it.total_cost == c) =
          (pricedItemsUnsorted st.bom.agg_bom_cost st.bom.priced).filter
            (fun it => it.total_cost == c)) :=
  ⟨compute_woW_eq, claim_c6 cfgW woW "t" rW compute_woW_eq⟩

theorem claim_c7_witness :
    compute_work_order cfgW woW "t" = .ok rW ∧
    (rW.bom_summary.metrics.total_item_count =
      rW.bom_summary.metrics.priced_item_count +
        rW.bom_summary.metrics.unpriced_item_count ∧
    (0 < rW.bom_summary.metrics.total_item_count →
      rW.bom_summary.metrics.cost_completeness_pct =
        (rW.bom_summary.metrics.priced_item_count : ℚ) /
          ((rW.bom_summary.metrics.priced_item_count : ℚ) +
            (rW.bom_summary.metrics.unpriced_item_count : ℚ)) * 100) ∧
    (rW.bom_summary.metrics.total_item_count = 0 →
      rW.bom_summary.metrics.cost_completeness_pct = 100) ∧
    (rW.bom_summary.metrics.priced_item_count = 0 →
      0 < rW.bom_summary.metrics.unpriced_item_count →
      rW.bom_summary.metrics.cost_completeness_pct = 0) ∧
    (rW.summary.cost.cost_complete = true ↔
      rW.bom_summary.metrics.unpriced_item_count = 0)) :=
  ⟨compute_woW_eq, claim_c7 cfgW woW "t" rW compute_woW_eq⟩

theorem claim_c8_witness :
    compute_work_order cfgW woNoLinesW "t" = .error noLinesError ∧
    (noLinesError.code = "validation_error" ∧
      noLinesError.status_code = 422 ∧
      (noLinesError = noLinesError ∨ noLinesError = unsupportedTypeError ∨
        noLinesError = invalidGeometryError) ∧
      noLinesError.message ≠ unsupportedTypeError.message ∧
      noLinesError.message ≠ invalidGeometryError.message ∧
      unsupportedTypeError.message ≠ invalidGeometryError.message) :=
  ⟨by with_unfolding_all rfl,
    claim_c8_amended cfgW woNoLinesW "t" noLinesError
      (by with_unfolding_all rfl)⟩

theorem claim_c10_witness :
    woLegacyW.lines = [] ∧
    (((woLegacyW.quantity = none ∨ woLegacyW.quantity = some 0) →
      compute_work_order cfgW woLegacyW "t" = .error noLinesError) ∧
    (∀ (p : Product) (pid q : Int), woLegacyW.product = some p →
      woLegacyW.product_id = some pid → pid ≠ 0 →
      woLegacyW.quantity = some q → q ≠ 0 →
      compute_work_order cfgW woLegacyW "t" =
        compute_work_order cfgW
          { woLegacyW with
            lines := [{ id := none, quantity := q, product := p }] } "t" ∧
      (∀ r, compute_work_order cfgW woLegacyW "t" = .ok r →
        r.header.line_count = 1 ∧ ∃ lr, r.lines = [lr] ∧
          lr.line_number = 1 ∧ lr.line_id = none ∧ lr.quantity = q))) :=
  ⟨rfl, claim_c10_amended cfgW woLegacyW "t" rfl⟩

/-- C3, counterexample to the claim as stated: all three legacy fields
are present and the legacy product is fully valid, so none of the
claim's enumerated failure conditions holds, yet the engine raises the
no-lines error because `product_id = 0` is falsy under Python truthiness. -/
theorem claim_c3_counterexample :
    woC3x.lines = [] ∧ woC3x.product_id = some 0 ∧ woC3x.quantity = some 1 ∧
    woC3x.product = some prodValidW ∧
    prodValidW.product_type = "RECTANGULAR_DUCT" ∧
    (parseDuctSpec prodValidW.attributes).isSome = true ∧
    compute_work_order cfgW woC3x "t" = .error noLinesError :=
  ⟨rfl, rfl, rfl, rfl, rfl, by with_unfolding_all rfl,
    by with_unfolding_all rfl⟩

/-- C8, counterexample to the claim as stated: the three failure modes
are pairwise distinct errors, but they all carry the same
machine-checkable code `"validation_error"` — no mode-identifying
kind/code distinguishes them. -/
theorem claim_c8_counterexample :
    compute_work_order cfgW woNoLinesW "t" = .error noLinesError ∧
    compute_work_order cfgW woBadTypeW "t" = .error unsupportedTypeError ∧
    compute_work_order cfgW woBadGeomW "t" = .error invalidGeometryError ∧
    noLinesError.code = unsupportedTypeError.code ∧
    unsupportedTypeError.code = invalidGeometryError.code ∧
    noLinesError ≠ unsupportedTypeError ∧
    noLinesError ≠ invalidGeometryError ∧
    unsupportedTypeError ≠ invalidGeometryError :=
  ⟨by with_unfolding_all rfl, by with_unfolding_all rfl,
    by with_unfolding_all rfl, rfl, rfl, by decide, by decide, by decide⟩

/-- C10, counterexample to the claim as stated: the legacy fields are all
present and truthy, so the claim asserts `compute` succeeds, but the
legacy product's type is unsupported and the engine raises an error. -/
theorem claim_c10_counterexample :
    woC10x.lines = [] ∧ woC10x.product_id = some 1 ∧ (1 : Int) ≠ 0 ∧
    woC10x.quantity = some 1 ∧ woC10x.product = some prodBadTypeW ∧
    compute_work_order cfgW woC10x "t" = .error unsupportedTypeError :=
  ⟨rfl, rfl, by decide, rfl, rfl, by with_unfolding_all rfl⟩

end MRP
